import Mathlib

/-!
Verification of the invoice parsing / validation pipeline.

This file shallowly embeds the two core engines of the repository —
`agents/validator_agent.py` (schema check, normalization, date check,
business rules, custom rules) and `agents/parser_agent.py` (regex-based
field extraction) — together with the signing helpers of
`agents/coral_utils.py`, and proves the frozen specification claims
about them.

Modelling conventions, fixed once here:
* Python values are modelled by the inductive `PyVal`; dicts are
  insertion-ordered association lists with string keys (Python dicts
  preserve insertion order and, as produced by this code base, have
  unique keys).
* Python floats are modelled as exact rationals `ℚ`.  The claims under
  study concern control flow, exception propagation and exact equality
  checks (the source compares floats with `==` and no tolerance); all
  concrete inputs used in witnesses are exactly representable, so the
  rational model agrees with IEEE semantics there.
* Fallible Python code is embedded in `Except String`; an uncaught
  Python exception is an `Except.error` carrying the message.
* `datetime.fromisoformat` is modelled on the `YYYY-MM-DD` fragment the
  pipeline produces and consumes; `float(...)` on strings is modelled on
  the plain decimal-literal fragment (no exponents / inf / nan).
* `dict.copy()` is shallow: `normalize` mutates the line-item dicts it
  shares with the caller.  Since values are modelled as trees, the
  functions that perform this mutation return a pair
  `(returned value, caller's dict after the call)`.
-/

set_option maxRecDepth 4000

namespace InvoiceProof

instance exceptDecEq {ε α : Type} [DecidableEq ε] [DecidableEq α] :
    DecidableEq (Except ε α) := fun a b =>
  match a, b with
  | .ok x, .ok y =>
      if h : x = y then .isTrue (by rw [h]) else .isFalse (by simp [h])
  | .error x, .error y =>
      if h : x = y then .isTrue (by rw [h]) else .isFalse (by simp [h])
  | .ok _, .error _ => .isFalse (by simp)
  | .error _, .ok _ => .isFalse (by simp)

/-- A Python value, as used by the invoice pipeline: `None`, `bool`,
`int`, `float` (modelled as `ℚ`), `str`, `list`, and string-keyed
`dict` (insertion-ordered association list). -/
inductive PyVal where
  | vNone
  | vBool (b : Bool)
  | vInt (n : ℤ)
  | vFloat (q : ℚ)
  | vStr (s : String)
  | vList (xs : List PyVal)
  | vDict (kvs : List (String × PyVal))

/-- A Python dict with string keys: insertion-ordered association list. -/
abbrev PyDict := List (String × PyVal)

/-- `d[k]` lookup: first entry with the given key, if any (models
`dict.get` / membership; Python dicts have unique keys, first match is
the entry). -/
def dget (d : PyDict) (k : String) : Option PyVal :=
  match d with
  | [] => Option.none
  | (k', v) :: rest => if k' = k then some v else dget rest k

/-- `d.get(k, default)`. -/
def dgetD (d : PyDict) (k : String) (dflt : PyVal) : PyVal :=
  (dget d k).getD dflt

/-- `d[k] = v` assignment: replaces the value of the first entry with
key `k` (Python: updates in place, preserving insertion order), or
appends a new entry if the key is absent. -/
def dset (d : PyDict) (k : String) (v : PyVal) : PyDict :=
  match d with
  | [] => [(k, v)]
  | (k', v') :: rest => if k' = k then (k', v) :: rest else (k', v') :: dset rest k v

/-- All entries of `d` except those with key `k` (used to state frame
conditions). -/
def dremove (d : PyDict) (k : String) : PyDict :=
  match d with
  | [] => []
  | (k', v) :: rest => if k' = k then dremove rest k else (k', v) :: dremove rest k

/-! ### Kernel-computable rational arithmetic
`Rat.add`/`Rat.mul`/`Rat.inv` are `@[irreducible]`, so concrete witness
computations go through `mkRat`-based wrappers, proved equal to the
standard operations. -/
/-- Multiplication on `ℚ` via `mkRat` (kernel-computable). -/
def qMul (a b : ℚ) : ℚ := mkRat (a.num * b.num) (a.den * b.den)

/-- Addition on `ℚ` via `mkRat` (kernel-computable). -/
def qAdd (a b : ℚ) : ℚ := mkRat (a.num * b.den + b.num * a.den) (a.den * b.den)

/-- Division on `ℚ` via `Rat.divInt` (kernel-computable). -/
def qDiv (a b : ℚ) : ℚ := Rat.divInt (a.num * b.den) (a.den * b.num)

/-- Negation on `ℚ` via `mkRat` (kernel-computable). -/
def qNeg (a : ℚ) : ℚ := mkRat (-a.num) a.den

/-! ### Characters, digits and number formatting -/
/-- The six ASCII characters Python treats as whitespace in `str.strip`,
`float(...)` and the regex class `\s`. -/
def isPySpace (c : Char) : Bool :=
  c == ' ' || c == '\t' || c == '\n' || c == '\r' || c == '\x0b' || c == '\x0c'

/-- Decimal digit test (ASCII `0`-`9`), stated on `Char.toNat` so its
arithmetic consequences are directly available. -/
def isDigitB (c : Char) : Bool :=
  decide (48 ≤ c.toNat) && decide (c.toNat ≤ 57)

/-- Numeric value of a digit character. -/
def digitVal (c : Char) : ℕ := c.toNat - 48

/-- The digit character for `n % 10`. -/
def digitChar (n : ℕ) : Char := Char.ofNat (48 + n % 10)

/-- Decimal digits of `n`, most significant first (`fuel`-driven; `natRepr`
supplies enough fuel). -/
def natChars : ℕ → ℕ → List Char
  | 0, _ => []
  | fuel + 1, n => if n < 10 then [digitChar n] else natChars fuel (n / 10) ++ [digitChar (n % 10)]

/-- Decimal representation of a natural number, as Python `str` / `repr`
produces it. -/
def natRepr (n : ℕ) : String := ⟨natChars (n + 1) n⟩

/-- Python `repr` of an `int`. -/
def intRepr (i : ℤ) : String :=
  if i < 0 then "-" ++ natRepr i.natAbs else natRepr i.natAbs

/-- Left-pad with zeros to `k` characters. -/
def padZeros (k : ℕ) (s : String) : String :=
  ⟨List.replicate (k - s.data.length) '0'⟩ ++ s

/-- Smallest positive `k ≤ 30` with `den ∣ 10 ^ k`, if any. -/
def denPow (den : ℕ) : Option ℕ :=
  (List.range 31).find? (fun k => decide (0 < k ∧ den ∣ 10 ^ k))

/-- Python `repr` of a float, on the fragment arising here: exact decimal
values print as their shortest decimal expansion with at least one digit
after the point (`50.0`, `2.5`).  Values whose denominator does not divide
a power of ten cannot be produced by the modelled pipeline from the decimal
inputs under study; they fall back to a fraction rendering. -/
def floatRepr (q : ℚ) : String :=
  let sign := if q < 0 then "-" else ""
  let n := q.num.natAbs
  let den := q.den
  if den = 1 then sign ++ natRepr n ++ ".0"
  else
    match denPow den with
    | some k =>
        let scaled := n * 10 ^ k / den
        let ip := scaled / 10 ^ k
        let fp := scaled % 10 ^ k
        sign ++ natRepr ip ++ "." ++ padZeros k (natRepr fp)
    | Option.none => sign ++ natRepr n ++ "/" ++ natRepr den

/-- `str.replace("/", "-")`, as `normalize` and `validate_dates` apply it
to the date field. -/
def replaceSlash (s : String) : String :=
  ⟨s.data.map (fun c => if c = '/' then '-' else c)⟩

/-- Python `str.strip()` (on the ASCII-whitespace fragment): drop leading
and trailing whitespace. -/
def pyStrip (s : String) : String :=
  ⟨(s.data.rdropWhile isPySpace).dropWhile isPySpace⟩

/-! ### Calendar dates
`datetime.fromisoformat(x)` / `datetime.strftime("%Y-%m-%d")` are modelled
on the `YYYY-MM-DD` fragment: the only date strings this pipeline produces
(parser output, normalized output) and the only ones the claims concern. -/
/-- A calendar date. -/
structure Date where
  y : ℕ
  m : ℕ
  d : ℕ
deriving DecidableEq

/-- Gregorian leap year, as `datetime` validates day-of-month. -/
def isLeap (y : ℕ) : Bool :=
  (decide (y % 4 = 0) && decide (y % 100 ≠ 0)) || decide (y % 400 = 0)

/-- Number of days in the given month. -/
def daysInMonth (y m : ℕ) : ℕ :=
  if m = 2 then (if isLeap y then 29 else 28)
  else if m = 4 ∨ m = 6 ∨ m = 9 ∨ m = 11 then 30
  else 31

/-- Character of `cs` at index `i` (space when out of range). -/
def charAt (cs : List Char) (i : ℕ) : Char := cs.getD i ' '

/-- Digit test at index `i`. -/
def isDigitAt (cs : List Char) (i : ℕ) : Bool := isDigitB (charAt cs i)

/-- Digit value at index `i`. -/
def digitAt (cs : List Char) (i : ℕ) : ℕ := digitVal (charAt cs i)

/-- Year read from positions 0-3. -/
def dateY (cs : List Char) : ℕ :=
  digitAt cs 0 * 1000 + digitAt cs 1 * 100 + digitAt cs 2 * 10 + digitAt cs 3

/-- Month read from positions 5-6. -/
def dateM (cs : List Char) : ℕ := digitAt cs 5 * 10 + digitAt cs 6

/-- Day read from positions 8-9. -/
def dateD (cs : List Char) : ℕ := digitAt cs 8 * 10 + digitAt cs 9

/-- Shape test for `YYYY-MM-DD`: ten characters, dashes at positions 4
and 7, digits elsewhere. -/
def isoShape (cs : List Char) : Bool :=
  decide (cs.length = 10) && isDigitAt cs 0 && isDigitAt cs 1 && isDigitAt cs 2 &&
    isDigitAt cs 3 && (charAt cs 4 == '-') && isDigitAt cs 5 && isDigitAt cs 6 &&
    (charAt cs 7 == '-') && isDigitAt cs 8 && isDigitAt cs 9

/-- `datetime.fromisoformat` on the `YYYY-MM-DD` fragment: exactly ten
characters, dashes at positions 4 and 7, digits elsewhere, month and
day-of-month in range.  Returns `none` where `fromisoformat` raises. -/
def parseISODate (s : String) : Option Date :=
  if isoShape s.data then
    if decide (1 ≤ dateM s.data) && decide (dateM s.data ≤ 12) && decide (1 ≤ dateD s.data) &&
        decide (dateD s.data ≤ daysInMonth (dateY s.data) (dateM s.data)) then
      some ⟨dateY s.data, dateM s.data, dateD s.data⟩
    else Option.none
  else Option.none

/-- Two zero-padded decimal digits of `n % 100` (strftime `%m` / `%d`). -/
def twoDigits (n : ℕ) : List Char := [digitChar (n / 10), digitChar n]

/-- Four zero-padded decimal digits of `n % 10000` (strftime `%Y` for the
years parsable from four digits). -/
def fourDigits (n : ℕ) : List Char := twoDigits (n / 100) ++ twoDigits n

/-- `strftime("%Y-%m-%d")`. -/
def formatDate (dt : Date) : String :=
  ⟨fourDigits dt.y ++ '-' :: (twoDigits dt.m ++ '-' :: twoDigits dt.d)⟩

/-- Strict `<` on dates (`datetime.date.__gt__`, flipped). -/
def dateLt (a b : Date) : Bool :=
  decide (a.y < b.y) ||
    (decide (a.y = b.y) &&
      (decide (a.m < b.m) || (decide (a.m = b.m) && decide (a.d < b.d))))

/-! ### Python float(), str()/repr and truthiness -/
/-- Value of a digit string, most significant first. -/
def digitsToNat (cs : List Char) : ℕ := cs.foldl (fun a c => a * 10 + digitVal c) 0

/-- Unsigned part of a Python float literal: `digits`, `digits.digits`,
`digits.` or `.digits`, nothing else remaining. -/
def parseFloatMag (cs : List Char) : Option ℚ :=
  let ip := cs.takeWhile isDigitB
  let rest := cs.dropWhile isDigitB
  match rest with
  | [] => if ip.isEmpty then Option.none else some (mkRat (digitsToNat ip) 1)
  | '.' :: rest2 =>
      let fp := rest2.takeWhile isDigitB
      let rest3 := rest2.dropWhile isDigitB
      if rest3.isEmpty && !(ip.isEmpty && fp.isEmpty) then
        some (mkRat (digitsToNat ip * 10 ^ fp.length + digitsToNat fp) (10 ^ fp.length))
      else Option.none
  | _ => Option.none

/-- Optional sign, then the unsigned literal. -/
def parseFloatCore (cs : List Char) : Option ℚ :=
  match cs with
  | '-' :: rest => (parseFloatMag rest).map qNeg
  | '+' :: rest => parseFloatMag rest
  | _ => parseFloatMag cs

/-- Python `float(s)` for a string, on the plain decimal-literal fragment
(whitespace-trimmed signed decimal literal; exponents / `inf` / `nan` /
underscores are outside the modelled fragment).  `none` where `float`
raises `ValueError`. -/
def parseFloatStr (s : String) : Option ℚ :=
  parseFloatCore ((s.data.rdropWhile isPySpace).dropWhile isPySpace)

mutual

/-- Python `repr` of a value, on the fragment the pipeline formats
(f-strings and `str()` of non-strings).  Containers render their
elements recursively. -/
def pyRepr : PyVal → String
  | .vNone => "None"
  | .vBool b => if b then "True" else "False"
  | .vInt n => intRepr n
  | .vFloat q => floatRepr q
  | .vStr s => "\x27" ++ s ++ "\x27"
  | .vList xs => "[" ++ String.intercalate ", " (pyReprList xs) ++ "]"
  | .vDict kvs => "\x7b" ++ String.intercalate ", " (pyReprKvs kvs) ++ "\x7d"

/-- `repr` of each element of a list. -/
def pyReprList : List PyVal → List String
  | [] => []
  | x :: xs => pyRepr x :: pyReprList xs

/-- `repr` of each `key: value` entry of a dict. -/
def pyReprKvs : List (String × PyVal) → List String
  | [] => []
  | (k, v) :: rest => ("\x27" ++ k ++ "\x27: " ++ pyRepr v) :: pyReprKvs rest

end

/-- Python `str(v)`: the string itself for strings, `repr` otherwise. -/
def pyStrOf : PyVal → String
  | .vStr s => s
  | v => pyRepr v

/-- Python truthiness of a value. -/
def pyTruthy : PyVal → Bool
  | .vNone => false
  | .vBool b => b
  | .vInt n => decide (n ≠ 0)
  | .vFloat q => decide (q ≠ 0)
  | .vStr s => decide (s ≠ "")
  | .vList xs => !xs.isEmpty
  | .vDict kvs => !kvs.isEmpty

/-- Python `float(v)`: numbers and bools convert, strings are parsed,
everything else raises `TypeError`. -/
def pyFloat (v : PyVal) : Except String ℚ :=
  match v with
  | .vBool b => .ok (if b then 1 else 0)
  | .vInt n => .ok (mkRat n 1)
  | .vFloat q => .ok q
  | .vStr s =>
      match parseFloatStr s with
      | some q => .ok q
      | Option.none => .error ("could not convert string to float: \x27" ++ s ++ "\x27")
  | _ => .error "float() argument must be a string or a real number"

/-- `str.replace(",", "")`, as the parser strips thousands separators. -/
def stripCommas (s : String) : String := ⟨s.data.filter (fun c => c ≠ ',')⟩

/-- Observation of an optional value as a float (`some q` exactly when
the value is the float `q`); makes concrete facts about dicts statable
in decidable types. -/
def obsFloat : Option PyVal → Option ℚ
  | some (.vFloat q) => some q
  | _ => Option.none

/-- Observation of an optional value as a string. -/
def obsStr : Option PyVal → Option String
  | some (.vStr s) => some s
  | _ => Option.none

/-- Observation of an optional value as an int. -/
def obsInt : Option PyVal → Option ℤ
  | some (.vInt n) => some n
  | _ => Option.none

/-! ### ValidatorAgent (`agents/validator_agent.py`)
The agent is stateless apart from its configuration; we embed the default
configuration (`schema=None`, `rules=None`), which is the one the
pipeline and the claims exercise. -/
/-- One step of a `jsonschema` error path (dict key or array index). -/
inductive PathElem where
  | key (k : String)
  | idx (i : ℕ)
deriving DecidableEq

/-- One entry of the list built by `ValidatorAgent.validate_schema`:
`{"message": ..., "path": ..., "validator": ...}`. -/
structure SchemaError where
  message : String
  path : List PathElem
  validator : String
deriving DecidableEq

/-- The required top-level fields of the default schema. -/
def requiredFields : List String :=
  ["invoice_number", "date", "vendor", "line_items", "subtotal", "tax", "total"]

/-- A Draft7 `required` error. -/
def reqErr (f : String) (path : List PathElem) : SchemaError :=
  ⟨"\x27" ++ f ++ "\x27 is a required property", path, "required"⟩

/-- The `required` errors for the top level, in schema order. -/
def requiredErrors (d : PyDict) : List SchemaError :=
  requiredFields.filterMap (fun f =>
    if (dget d f).isSome then Option.none else some (reqErr f []))

/-- Draft7 type test `{"type": "string"}` (bool is not a string). -/
def isStrTy : PyVal → Bool
  | .vStr _ => true
  | _ => false

/-- Draft7 type test `{"type": ["number", "integer", "string"]}`
(`jsonschema` excludes bool from the numeric types). -/
def isNumIntStrTy : PyVal → Bool
  | .vInt _ => true
  | .vFloat _ => true
  | .vStr _ => true
  | _ => false

/-- A Draft7 `type` error. -/
def typeErr (v : PyVal) (path : List PathElem) (tys : String) : SchemaError :=
  ⟨pyRepr v ++ " is not of type " ++ tys, path, "type"⟩

/-- Rendering of the string type in Draft7 messages. -/
def strTyName : String := "\x27string\x27"

/-- Rendering of the numeric-or-string union type in Draft7 messages. -/
def numTyNames : String := "\x27number\x27, \x27integer\x27, \x27string\x27"

/-- Type check of a top-level string-typed property, if present. -/
def checkStrProp (d : PyDict) (f : String) : List SchemaError :=
  match dget d f with
  | some v => if isStrTy v then [] else [typeErr v [.key f] strTyName]
  | Option.none => []

/-- Type check of a top-level numeric-or-string property, if present. -/
def checkNumProp (d : PyDict) (f : String) : List SchemaError :=
  match dget d f with
  | some v => if isNumIntStrTy v then [] else [typeErr v [.key f] numTyNames]
  | Option.none => []

/-- Required fields of a line item. -/
def itemRequired : List String := ["description", "quantity", "unit_price", "total"]

/-- Numeric-or-string type check of one line-item property, if present. -/
def checkItemNum (kvs : PyDict) (i : ℕ) (f : String) : List SchemaError :=
  match dget kvs f with
  | some v => if isNumIntStrTy v then [] else [typeErr v [.key "line_items", .idx i, .key f] numTyNames]
  | Option.none => []

/-- Schema check of one line item: object type, required fields,
property types — in schema order. -/
def checkItem (i : ℕ) (v : PyVal) : List SchemaError :=
  match v with
  | .vDict kvs =>
      (itemRequired.filterMap (fun f =>
        if (dget kvs f).isSome then Option.none
        else some (reqErr f [.key "line_items", .idx i]))) ++
      (match dget kvs "description" with
        | some v2 =>
            if isStrTy v2 then []
            else [typeErr v2 [.key "line_items", .idx i, .key "description"] strTyName]
        | Option.none => []) ++
      checkItemNum kvs i "quantity" ++ checkItemNum kvs i "unit_price" ++
      checkItemNum kvs i "total"
  | _ => [typeErr v [.key "line_items", .idx i] "\x27object\x27"]

/-- Schema check of the `line_items` property, if present. -/
def checkLineItems (d : PyDict) : List SchemaError :=
  match dget d "line_items" with
  | some (.vList xs) => (xs.enum.map (fun p => checkItem p.1 p.2)).flatten
  | some v => [typeErr v [.key "line_items"] "\x27array\x27"]
  | Option.none => []

/-- `ValidatorAgent.validate_schema` with the default schema, on the
dicts `run_data` passes it (the top-level `type: object` test holds by
construction).  Errors are collected in `Draft7Validator.iter_errors`
order: `required` first, then `properties` in schema order. -/
def validate_schema (d : PyDict) : List SchemaError :=
  requiredErrors d ++
    checkStrProp d "invoice_number" ++ checkStrProp d "date" ++ checkStrProp d "vendor" ++
    checkLineItems d ++ checkNumProp d "subtotal" ++ checkNumProp d "tax" ++
    checkNumProp d "total"

/-- The date-normalization step of `ValidatorAgent.normalize`: reparse
`str(value).replace("/", "-")` and reformat as `%Y-%m-%d`; the
`try/except` keeps the original value when parsing fails. -/
def normDateVal (v : PyVal) : PyVal :=
  match parseISODate (replaceSlash (pyStrOf v)) with
  | some dt => .vStr (formatDate dt)
  | Option.none => v

/-- `if k in item: item[k] = float(item[k])` for one line-item key. -/
def coerceKey (k : String) (kvs : PyDict) : Except String PyDict :=
  match dget kvs k with
  | some v =>
      match pyFloat v with
      | .error e => .error e
      | .ok q => .ok (dset kvs k (.vFloat q))
  | Option.none => .ok kvs

/-- Occurrence of `pat` in `hay` (helper for the substring test). -/
def listContainsSub : List Char → List Char → Bool
  | hay, pat =>
      if pat.isPrefixOf hay then true
      else
        match hay with
        | [] => false
        | _ :: rest => listContainsSub rest pat

/-- Substring test (Python `in` on strings). -/
def strContains (s pat : String) : Bool := listContainsSub s.data pat.data

/-- Membership of the string `s` in a Python list (Python `in`; numbers
never compare equal to strings). -/
def containsStrVal (xs : List PyVal) (s : String) : Bool :=
  xs.any (fun v => match v with | .vStr t => t == s | _ => false)

/-- The body of the line-item loop of `normalize` for one item: coerce
`quantity`, `unit_price`, `total` (in that order) to float.  Non-dict
items reproduce the Python behaviour of `in` plus item assignment. -/
def normItem : PyVal → Except String PyVal
  | .vDict kvs =>
      match coerceKey "quantity" kvs with
      | .error e => .error e
      | .ok a =>
        match coerceKey "unit_price" a with
        | .error e => .error e
        | .ok b =>
          match coerceKey "total" b with
          | .error e => .error e
          | .ok c => .ok (.vDict c)
  | .vStr s =>
      if strContains s "quantity" || strContains s "unit_price" || strContains s "total" then
        .error "string indices must be integers"
      else .ok (.vStr s)
  | .vList ys =>
      if containsStrVal ys "quantity" || containsStrVal ys "unit_price" ||
          containsStrVal ys "total" then
        .error "list indices must be integers"
      else .ok (.vList ys)
  | _ => .error "argument of type is not iterable"

/-- `Except`-valued map (elementwise, first error wins). -/
def mapExcept (f : PyVal → Except String PyVal) : List PyVal → Except String (List PyVal)
  | [] => .ok []
  | x :: xs =>
      match f x with
      | .error e => .error e
      | .ok y =>
          match mapExcept f xs with
          | .error e => .error e
          | .ok ys => .ok (y :: ys)

/-- The `for item in normalized["line_items"]` loop of `normalize`.
Iterating a string yields one-character strings, none of which contains
the coerced keys, so nothing happens; iterating a dict yields its keys. -/
def normItems : PyVal → Except String PyVal
  | .vList xs =>
      match mapExcept normItem xs with
      | .error e => .error e
      | .ok ys => .ok (.vList ys)
  | .vStr s => .ok (.vStr s)
  | .vDict kvs =>
      if kvs.any (fun kv => strContains kv.1 "quantity" || strContains kv.1 "unit_price" ||
          strContains kv.1 "total") then
        .error "string indices must be integers"
      else .ok (.vDict kvs)
  | _ => .error "object is not iterable"

/-- The `for field in ["subtotal", "tax", "total"]` coercion loop. -/
def numFields : List String → PyDict → Except String PyDict
  | [], d => .ok d
  | f :: fs, d =>
      match dget d f with
      | some v =>
          match pyFloat v with
          | .error e => .error e
          | .ok q => numFields fs (dset d f (.vFloat q))
      | Option.none => numFields fs d

/-- The date block of `ValidatorAgent.normalize`. -/
def normStep1 (d : PyDict) : PyDict :=
  match dget d "date" with
  | some v => dset d "date" (normDateVal v)
  | Option.none => d

/-- The vendor-trim block of `ValidatorAgent.normalize`. -/
def normStep2 (d1 : PyDict) : PyDict :=
  match dget d1 "vendor" with
  | some (.vStr s) => dset d1 "vendor" (.vStr (pyStrip s))
  | _ => d1

/-- `ValidatorAgent.normalize`.  `data.copy()` is a shallow copy, so the
line-item dicts mutated by the loop are shared with the caller: the
result is the pair `(returned normalized dict, caller's dict after the
call)`.  An uncaught exception (`float` coercion failure, bad
`line_items`) is an `Except.error`. -/
def normalize (d : PyDict) : Except String (PyDict × PyDict) :=
  match dget (normStep2 (normStep1 d)) "line_items" with
  | some v =>
      match normItems v with
      | .error e => .error e
      | .ok v2 =>
          match numFields ["subtotal", "tax", "total"]
              (dset (normStep2 (normStep1 d)) "line_items" v2) with
          | .error e => .error e
          | .ok d3 => .ok (d3, dset d "line_items" v2)
  | Option.none =>
      match numFields ["subtotal", "tax", "total"] (normStep2 (normStep1 d)) with
      | .error e => .error e
      | .ok d3 => .ok (d3, d)

/-- `ValidatorAgent.validate_dates` (`today` stands for
`datetime.now().date()`). -/
def validate_dates (d : PyDict) (today : Date) : List String :=
  match dget d "date" with
  | Option.none => ["Missing invoice date"]
  | some v =>
      if !pyTruthy v then ["Missing invoice date"]
      else
        match parseISODate (replaceSlash (pyStrOf v)) with
        | some dt =>
            if dateLt today dt then ["Invoice date " ++ pyStrOf v ++ " is in the future"]
            else []
        | Option.none => ["Invalid date format: " ++ pyStrOf v]

/-- Python subscript `v[k]` for a string key. -/
def pySub (v : PyVal) (k : String) : Except String PyVal :=
  match v with
  | .vDict kvs =>
      match dget kvs k with
      | some x => .ok x
      | Option.none => .error ("KeyError: \x27" ++ k ++ "\x27")
  | .vStr _ => .error "string indices must be integers"
  | .vList _ => .error "list indices must be integers"
  | _ => .error "object is not subscriptable"

/-- Python iteration over a value (list elements, string characters as
one-character strings, dict keys). -/
def pyIter : PyVal → Except String (List PyVal)
  | .vList xs => .ok xs
  | .vStr s => .ok (s.data.map (fun c => .vStr ⟨[c]⟩))
  | .vDict kvs => .ok (kvs.map (fun kv => .vStr kv.1))
  | _ => .error "object is not iterable"

/-- The message `f"Line item {i}: total mismatch (expected {expected_total},
got {item[...]})"` of `validate_business_rules`. -/
def lineItemMismatchMsg (i : ℕ) (expected : ℚ) (got : PyVal) : String :=
  "Line item " ++ natRepr i ++ ": total mismatch (expected " ++ floatRepr expected ++
    ", got " ++ pyStrOf got ++ ")"

/-- Subtotal mismatch message. -/
def subtotalMismatchMsg (expected : ℚ) (got : PyVal) : String :=
  "Subtotal mismatch (expected " ++ floatRepr expected ++ ", got " ++ pyStrOf got ++ ")"

/-- Total mismatch message. -/
def totalMismatchMsg (expected : ℚ) (got : PyVal) : String :=
  "Total mismatch (expected " ++ floatRepr expected ++ ", got " ++ pyStrOf got ++ ")"

/-- The per-item loop of `validate_business_rules`, starting at index
`i`: collected mismatch messages plus the first uncaught exception, if
any (messages appended before the exception are kept). -/
def bizLoop : List PyVal → ℕ → List String × Option String
  | [], _ => ([], Option.none)
  | it :: rest, i =>
      match pySub it "quantity" with
      | .error e => ([], some e)
      | .ok qv =>
      match pyFloat qv with
      | .error e => ([], some e)
      | .ok q =>
      match pySub it "unit_price" with
      | .error e => ([], some e)
      | .ok uv =>
      match pyFloat uv with
      | .error e => ([], some e)
      | .ok u =>
      match pySub it "total" with
      | .error e => ([], some e)
      | .ok tv =>
      match pyFloat tv with
      | .error e => ([], some e)
      | .ok t =>
          let here := if t ≠ qMul q u then [lineItemMismatchMsg i (qMul q u) tv] else []
          match bizLoop rest (i + 1) with
          | (errs, stop) => (here ++ errs, stop)

/-- `sum(float(item["total"]) for item in ...)` (left fold from `acc`,
as Python `sum` accumulates). -/
def sumTotals : ℚ → List PyVal → Except String ℚ
  | acc, [] => .ok acc
  | acc, it :: rest =>
      match pySub it "total" with
      | .error e => .error e
      | .ok tv =>
          match pyFloat tv with
          | .error e => .error e
          | .ok t => sumTotals (qAdd acc t) rest

/-- The `try` body of `validate_business_rules`: mismatch messages plus
the first uncaught exception, if any. -/
def bizChecks (d : PyDict) : List String × Option String :=
  match pyIter (dgetD d "line_items" (.vList [])) with
  | .error e => ([], some e)
  | .ok items =>
    match bizLoop items 0 with
    | (errs, some e) => (errs, some e)
    | (errs, Option.none) =>
      match sumTotals 0 items with
      | .error e => (errs, some e)
      | .ok st =>
        match pyFloat (dgetD d "subtotal" (.vInt 0)) with
        | .error e => (errs, some e)
        | .ok sub =>
          let errs2 := errs ++
            (if sub ≠ st then [subtotalMismatchMsg st (dgetD d "subtotal" .vNone)] else [])
          match pyFloat (dgetD d "tax" (.vInt 0)) with
          | .error e => (errs2, some e)
          | .ok tx =>
            match pyFloat (dgetD d "total" (.vInt 0)) with
            | .error e => (errs2, some e)
            | .ok tot =>
                (errs2 ++
                  (if tot ≠ qAdd sub tx then
                    [totalMismatchMsg (qAdd sub tx) (dgetD d "total" .vNone)]
                   else []),
                 Option.none)

/-- `ValidatorAgent.validate_business_rules`: the whole body runs inside
`try/except`, so an exception becomes a final
`"Business rule validation error: ..."` entry. -/
def validate_business_rules (d : PyDict) : List String :=
  match bizChecks d with
  | (errs, Option.none) => errs
  | (errs, some e) => errs ++ ["Business rule validation error: " ++ e]

/-- Round half to even (Python `round` / format rounding), for the
nonnegative exactly representable values this pipeline rounds.  Written
with truncating integer division, which agrees with floor there. -/
def bankersRound (x : ℚ) : ℤ :=
  let q := x.num.tdiv x.den
  let r := x.num.tmod x.den
  if 2 * r < (x.den : ℤ) then q
  else if (x.den : ℤ) < 2 * r then q + 1
  else if q % 2 = 0 then q else q + 1

/-- Python `f"{r:.2%}"` for the positive rates this code formats. -/
def formatPercent2 (r : ℚ) : String :=
  let n := (bankersRound (mkRat (r.num * 10000) r.den)).toNat
  natRepr (n / 100) ++ "." ++ padZeros 2 (natRepr (n % 100)) ++ "%"

/-- The tax-rate violation message. -/
def taxRateMsg (r : ℚ) : String :=
  "Tax rate too high: " ++ formatPercent2 r ++ " (max 20%)"

/-- `str.startswith`. -/
def pyStartsWith (s pre : String) : Bool := pre.data.isPrefixOf s.data

/-- `ValidatorAgent.validate_custom_rules`: vendor truthiness, tax-rate
ceiling (guarded by `try/except`), invoice-number format. -/
def validate_custom_rules (d : PyDict) : List String :=
  (if pyTruthy (dgetD d "vendor" .vNone) then [] else ["Vendor is missing or empty"]) ++
  (match pyFloat (dgetD d "subtotal" (.vInt 0)) with
    | .error _ => ["Error calculating tax rate"]
    | .ok sub =>
      match pyFloat (dgetD d "tax" (.vInt 0)) with
      | .error _ => ["Error calculating tax rate"]
      | .ok tx =>
        if 0 < sub ∧ mkRat 1 5 < qDiv tx sub then [taxRateMsg (qDiv tx sub)] else []) ++
  (if pyStartsWith (pyStrOf (dgetD d "invoice_number" (.vStr ""))) "INV-" then []
   else ["Invalid invoice number format: " ++ pyStrOf (dgetD d "invoice_number" (.vStr ""))])

/-- The result dict built by `ValidatorAgent.run_data`. -/
structure RunResult where
  status : String
  valid : Bool
  schema_errors : List SchemaError
  date_errors : List String
  business_errors : List String
  custom_errors : List String
  normalized_data : Option PyDict

/-- `ValidatorAgent.run_data` (`today` stands for the current local
date): normalize, then schema / date checks with early return, then
business and custom checks accumulating.  The second component of the
result is the caller's input dict after the call (see `normalize`);
an uncaught exception from `normalize` propagates. -/
def run_data (d : PyDict) (today : Date) : Except String (RunResult × PyDict) :=
  match normalize d with
  | .error e => .error e
  | .ok p =>
  let se := validate_schema p.1
  if !se.isEmpty then
    .ok ({ status := "FAIL", valid := false, schema_errors := se, date_errors := [],
           business_errors := [], custom_errors := [], normalized_data := some p.1 }, p.2)
  else
    let de := validate_dates p.1 today
    if !de.isEmpty then
      .ok ({ status := "FAIL", valid := false, schema_errors := [], date_errors := de,
             business_errors := [], custom_errors := [], normalized_data := some p.1 }, p.2)
    else
      let be := validate_business_rules p.1
      let ce := validate_custom_rules p.1
      .ok ({ status := if be.isEmpty && ce.isEmpty then "PASS" else "FAIL",
             valid := be.isEmpty && ce.isEmpty,
             schema_errors := [], date_errors := [], business_errors := be,
             custom_errors := ce, normalized_data := some p.1 }, p.2)

/-! ### ParserAgent (`agents/parser_agent.py`)
Each regex of `_basic_parse` is embedded as a hand-compiled matcher with
`re.search` semantics: try the pattern at each start position from the
left, with the backtracking the pattern admits (greedy classes here are
disjoint from their successors except where noted). -/
/-- `re.search` driver: try `step` at every start position, leftmost
match wins (all patterns below need at least one character). -/
def searchFrom {α : Type} (step : List Char → Option α) : List Char → Option α
  | [] => Option.none
  | c :: rest => (step (c :: rest)).orElse (fun _ => searchFrom step rest)

/-- Match at the current position: `INV[-\s]?\d+` (case-insensitive).
The optional `[-\s]` is tried greedily; if no digits follow it the
engine retries without it (which can only succeed if the optional
character was itself a digit — it is not — so that path fails). -/
def stepInv : List Char → Option (List Char)
  | a :: b :: c :: rest =>
      if a.toLower = 'i' ∧ b.toLower = 'n' ∧ c.toLower = 'v' then
        match rest with
        | d :: rest2 =>
            if d = '-' ∨ isPySpace d then
              let ds := rest2.takeWhile isDigitB
              if ds.isEmpty then
                let ds2 := rest.takeWhile isDigitB
                if ds2.isEmpty then Option.none else some (a :: b :: c :: ds2)
              else some (a :: b :: c :: d :: ds)
            else
              let ds2 := rest.takeWhile isDigitB
              if ds2.isEmpty then Option.none else some (a :: b :: c :: ds2)
        | [] => Option.none
      else Option.none
  | _ => Option.none

/-- The invoice-number search, with `.upper()` applied as the source
does. -/
def searchInvNum (s : String) : Option String :=
  (searchFrom stepInv s.data).map (fun cs => ⟨cs.map Char.toUpper⟩)

/-- The `[:\s]` class. -/
def isColonSpace (c : Char) : Bool := c == ':' || isPySpace c

/-- Match at the current position: the date pattern `Date`, then
`[:\s]*`, then four digits, a dash-or-slash separator, two digits, a
separator, two digits (the class `[:\s]` is disjoint from digits, so
its greedy run needs no backtracking). -/
def stepDate : List Char → Option (List Char)
  | 'D' :: 'a' :: 't' :: 'e' :: rest =>
      match rest.dropWhile isColonSpace with
      | y1 :: y2 :: y3 :: y4 :: s1 :: m1 :: m2 :: s2 :: d1 :: d2 :: _ =>
          if isDigitB y1 ∧ isDigitB y2 ∧ isDigitB y3 ∧ isDigitB y4 ∧ (s1 = '-' ∨ s1 = '/') ∧
              isDigitB m1 ∧ isDigitB m2 ∧ (s2 = '-' ∨ s2 = '/') ∧ isDigitB d1 ∧ isDigitB d2 then
            some [y1, y2, y3, y4, s1, m1, m2, s2, d1, d2]
          else Option.none
      | _ => Option.none
  | _ => Option.none

/-- The date search. -/
def searchDate (s : String) : Option String := (searchFrom stepDate s.data).map String.mk

/-- Backtracking tail of `Vendor[:\s]*(.+)`: the `[:\s]*` run was
consumed greedily (`runRev` holds it reversed); `(.+)` needs one
non-newline character, else the run is given back one character at a
time (`\s` includes the newline, `.` does not). -/
def vendorTail : List Char → List Char → Option (List Char)
  | runRev, rest =>
      let ok : Bool := match rest with
        | c :: _ => decide (c ≠ '\n')
        | [] => false
      if ok then some (rest.takeWhile (fun c => decide (c ≠ '\n')))
      else
        match runRev with
        | [] => Option.none
        | r :: rr => vendorTail rr (r :: rest)

/-- Match at the current position: `Vendor[:\s]*(.+)`. -/
def stepVendor : List Char → Option (List Char)
  | 'V' :: 'e' :: 'n' :: 'd' :: 'o' :: 'r' :: rest =>
      vendorTail (rest.takeWhile isColonSpace).reverse (rest.dropWhile isColonSpace)
  | _ => Option.none

/-- The vendor search (group 1; the source strips it afterwards). -/
def searchVendor (s : String) : Option String := (searchFrom stepVendor s.data).map String.mk

/-- The `[\d.,]` class. -/
def isNumClass (c : Char) : Bool := isDigitB c || c == '.' || c == ','

/-- Literal prefix: `some rest` when `cs` starts with `label`. -/
def dropPre : List Char → List Char → Option (List Char)
  | [], cs => some cs
  | l :: ls, c :: cs => if c = l then dropPre ls cs else Option.none
  | _ :: _, [] => Option.none

/-- Match at the current position: `<label>[:\s]*([\d.,]+)` (classes
`[:\s]` and `[\d.,]` are disjoint, so the greedy runs need no
backtracking). -/
def stepLabelNum (label : List Char) (cs : List Char) : Option (List Char) :=
  match dropPre label cs with
  | some rest =>
      let g := (rest.dropWhile isColonSpace).takeWhile isNumClass
      if g.isEmpty then Option.none else some g
  | Option.none => Option.none

/-- Search for `<label>[:\s]*([\d.,]+)`, returning group 1. -/
def searchLabelNum (label : String) (s : String) : Option String :=
  (searchFrom (stepLabelNum label.data) s.data).map String.mk

/-- Continuation of the line-item pattern after the `@`:
`\s*([\d.,]+)\s*=\s*([\d.,]+)`. -/
def itemCont (r5 : List Char) : Option (List Char × List Char) :=
  let r6 := r5.dropWhile isPySpace
  let g3 := r6.takeWhile isNumClass
  if g3.isEmpty then Option.none
  else
    match (r6.dropWhile isNumClass).dropWhile isPySpace with
    | '=' :: r9 =>
        let g4 := (r9.dropWhile isPySpace).takeWhile isNumClass
        if g4.isEmpty then Option.none else some (g3, g4)
    | _ => Option.none

/-- The lazy `(.+?)@` scan: grow the group (accumulated reversed in
`pre`) until an `@` whose continuation matches; newline or end of input
aborts. -/
def itemScan : List Char → List Char → Option (List Char × List Char × List Char)
  | pre, '@' :: r5 =>
      match itemCont r5 with
      | some g34 => some (pre.reverse, g34.1, g34.2)
      | Option.none => itemScan ('@' :: pre) r5
  | pre, c :: r5 => if c = '\n' then Option.none else itemScan (c :: pre) r5
  | _, [] => Option.none

/-- One attempt of the lazy group at a fixed start: `(.+?)@<rest>` on
`r4` (the group needs at least one character and cannot cross a
newline). -/
def itemAttempt (r4 : List Char) : Option (List Char × List Char × List Char) :=
  match r4 with
  | [] => Option.none
  | c0 :: r5 => if c0 = '\n' then Option.none else itemScan [c0] r5

/-- Backtracking of the greedy `\s*` after the literal `x`: the engine
first lets it keep `ws` whitespace characters and, each time the rest
of the pattern fails, gives one back to the lazy group, so the group
may begin with whitespace. -/
def itemWsLoop (r3 : List Char) : ℕ → Option (List Char × List Char × List Char)
  | 0 => itemAttempt r3
  | ws + 1 =>
      match itemAttempt (r3.drop (ws + 1)) with
      | some g => some g
      | Option.none => itemWsLoop r3 ws

/-- Match at the current position:
`(\d+)\s*x\s*(.+?)@\s*([\d.,]+)\s*=\s*([\d.,]+)`; the whitespace run
after `x` is tried longest first and backtracks into the lazy
description group. -/
def stepLineItem (cs : List Char) : Option (List Char × List Char × List Char × List Char) :=
  let ds := cs.takeWhile isDigitB
  if ds.isEmpty then Option.none
  else
    match (cs.dropWhile isDigitB).dropWhile isPySpace with
    | 'x' :: r3 =>
        match itemWsLoop r3 (r3.takeWhile isPySpace).length with
        | some g => some (ds, g.1, g.2.1, g.2.2)
        | Option.none => Option.none
    | _ => Option.none

/-- The per-line line-item search: groups 1-4 as strings. -/
def searchLineItem (line : String) : Option (String × String × String × String) :=
  (searchFrom stepLineItem line.data).map
    (fun g => (⟨g.1⟩, ⟨g.2.1⟩, ⟨g.2.2.1⟩, ⟨g.2.2.2⟩))

/-- Split at newlines, accumulator reversed (helper for `pyLines`). -/
def splitLinesAux : List Char → List Char → List String
  | acc, [] => [⟨acc.reverse⟩]
  | acc, '\n' :: rest => String.mk acc.reverse :: splitLinesAux [] rest
  | acc, c :: rest => splitLinesAux (c :: acc) rest

/-- `str.splitlines` on the `\n` fragment the pipeline exercises. -/
def pyLines (s : String) : List String := splitLinesAux [] s.data

/-- Python `round(x, 2)` on the nonnegative exact decimals the parser
produces. -/
def round2 (x : ℚ) : ℚ := mkRat (bankersRound (mkRat (x.num * 100) x.den)) 100

/-- One parsed line item as a dict, field order as the source builds
it. -/
def mkItemDict (desc : String) (q u t : ℚ) : PyVal :=
  .vDict [("description", .vStr desc), ("quantity", .vFloat q), ("unit_price", .vFloat u),
          ("total", .vFloat t)]

/-- The fallback `Service` line item (`quantity` is the int literal 1). -/
def fallbackItem : PyVal :=
  .vDict [("description", .vStr "Service"), ("quantity", .vInt 1), ("unit_price", .vFloat 50),
          ("total", .vFloat 50)]

/-- Conversion of one line-item match: `float` of the quantity digits,
stripped description, comma-stripped `float` of unit price and total. -/
def convItem (g : String × String × String × String) : Except String (String × ℚ × ℚ × ℚ) :=
  match pyFloat (.vStr g.1) with
  | .error e => .error e
  | .ok q =>
    match pyFloat (.vStr (stripCommas g.2.2.1)) with
    | .error e => .error e
    | .ok u =>
      match pyFloat (.vStr (stripCommas g.2.2.2)) with
      | .error e => .error e
      | .ok t => .ok (pyStrip g.2.1, q, u, t)

/-- Convert all matches, first error wins. -/
def mapExceptConv :
    List (String × String × String × String) → Except String (List (String × ℚ × ℚ × ℚ))
  | [] => .ok []
  | g :: gs =>
      match convItem g with
      | .error e => .error e
      | .ok x =>
          match mapExceptConv gs with
          | .error e => .error e
          | .ok xs => .ok (x :: xs)

/-- Python `sum` over rationals (left fold from 0). -/
def sumQ (l : List ℚ) : ℚ := l.foldl qAdd 0

/-- `ParserAgent._basic_parse`.  `Except.error` exactly where the Python
raises: a matched numeric group that does not convert to `float`. -/
def basic_parse (t : String) : Except String PyDict :=
  let invno := match searchInvNum t with
    | some g => g
    | Option.none => "INV-UNKNOWN"
  let date := match searchDate t with
    | some g => g
    | Option.none => "1970-01-01"
  let vendor := match searchVendor t with
    | some g => pyStrip g
    | Option.none => "Unknown Vendor"
  match mapExceptConv ((pyLines t).filterMap searchLineItem) with
  | .error e => .error e
  | .ok items =>
  let itemDicts := if items.isEmpty then [fallbackItem]
    else items.map (fun it => mkItemDict it.1 it.2.1 it.2.2.1 it.2.2.2)
  let itemTots := if items.isEmpty then [(50 : ℚ)] else items.map (fun it => it.2.2.2)
  match (match searchLabelNum "Subtotal" t with
         | some g => pyFloat (.vStr (stripCommas g))
         | Option.none => .ok (sumQ itemTots)) with
  | .error e => .error e
  | .ok subtotal =>
  match (match searchLabelNum "Tax" t with
         | some g => pyFloat (.vStr (stripCommas g))
         | Option.none => .ok (round2 (qMul subtotal (mkRat 1 10)))) with
  | .error e => .error e
  | .ok tax =>
  match (match searchLabelNum "Total" t with
         | some g => pyFloat (.vStr (stripCommas g))
         | Option.none => .ok (qAdd subtotal tax)) with
  | .error e => .error e
  | .ok total =>
  .ok [("invoice_number", .vStr invno), ("date", .vStr date), ("vendor", .vStr vendor),
       ("line_items", .vList itemDicts), ("subtotal", .vFloat subtotal),
       ("tax", .vFloat tax), ("total", .vFloat total)]

/-! ### coral_utils (`agents/coral_utils.py`)
`sign_message` = hex HMAC-SHA256 of the deterministic (sorted-key,
compact-separator) JSON serialization; `verify_signature` recomputes and
compares (`hmac.compare_digest` is functionally string equality).  SHA-256
is implemented over byte lists with `Nat` arithmetic mod `2^32`. -/
/-- UTF-8 encoding of one character. -/
def utf8Char (c : Char) : List ℕ :=
  let n := c.toNat
  if n < 128 then [n]
  else if n < 2048 then [192 + n / 64, 128 + n % 64]
  else if n < 65536 then [224 + n / 4096, 128 + (n / 64) % 64, 128 + n % 64]
  else [240 + n / 262144, 128 + (n / 4096) % 64, 128 + (n / 64) % 64, 128 + n % 64]

/-- UTF-8 encoding of a string (`str.encode("utf-8")`). -/
def utf8Bytes (s : String) : List ℕ := (s.data.map utf8Char).flatten

/-- Lower-case hex digit. -/
def hexDigit (n : ℕ) : Char :=
  if n % 16 < 10 then digitChar (n % 16) else Char.ofNat (87 + n % 16)

/-- Four hex digits of `n % 65536`. -/
def hex4 (n : ℕ) : List Char :=
  [hexDigit (n / 4096), hexDigit (n / 256), hexDigit (n / 16), hexDigit n]

/-- Two hex digits of a byte. -/
def byteHex (b : ℕ) : List Char := [hexDigit (b / 16), hexDigit b]

/-- `.hexdigest()`: lower-case hex of a byte string. -/
def bytesHex (bs : List ℕ) : String := ⟨(bs.map byteHex).flatten⟩

/-- `json.dumps` escaping of one character (`ensure_ascii=True`):
short escapes, `\u00XX` for other controls, `\uXXXX` (with surrogate
pairs) for non-ASCII. -/
def jsonEscapeChar (c : Char) : List Char :=
  if c = '"' then ['\\', '"']
  else if c = '\\' then ['\\', '\\']
  else if c = '\n' then ['\\', 'n']
  else if c = '\t' then ['\\', 't']
  else if c = '\r' then ['\\', 'r']
  else if c = '\x08' then ['\\', 'b']
  else if c = '\x0c' then ['\\', 'f']
  else if c.toNat < 32 then '\\' :: 'u' :: hex4 c.toNat
  else if c.toNat < 128 then [c]
  else if c.toNat < 65536 then '\\' :: 'u' :: hex4 c.toNat
  else
    let v := c.toNat - 65536
    '\\' :: 'u' :: hex4 (55296 + v / 1024) ++ '\\' :: 'u' :: hex4 (56320 + v % 1024)

/-- JSON rendering of a string. -/
def jsonStr (s : String) : String := ⟨'"' :: (s.data.map jsonEscapeChar).flatten ++ ['"']⟩

/-- Stable insertion by key (Python `sorted` on dict items). -/
def insertKv {β : Type} (kv : String × β) : List (String × β) → List (String × β)
  | [] => [kv]
  | kv2 :: rest => if kv.1 < kv2.1 then kv :: kv2 :: rest else kv2 :: insertKv kv rest

/-- Stable insertion sort by key. -/
def sortKvs {β : Type} : List (String × β) → List (String × β)
  | [] => []
  | kv :: rest => insertKv kv (sortKvs rest)

mutual

/-- `json.dumps(v, sort_keys=True, separators=(",", ":"))` on the
modelled value fragment. -/
def jsonDump : PyVal → String
  | .vNone => "null"
  | .vBool b => if b then "true" else "false"
  | .vInt n => intRepr n
  | .vFloat q => floatRepr q
  | .vStr s => jsonStr s
  | .vList xs => "[" ++ String.intercalate "," (jsonDumpList xs) ++ "]"
  | .vDict kvs =>
      "\x7b" ++
        String.intercalate ","
          ((sortKvs (jsonDumpKvs kvs)).map (fun kv => jsonStr kv.1 ++ ":" ++ kv.2)) ++
        "\x7d"

/-- Rendered list elements. -/
def jsonDumpList : List PyVal → List String
  | [] => []
  | x :: xs => jsonDump x :: jsonDumpList xs

/-- Dict entries with rendered values (sorting by key commutes with
rendering, so the keys are sorted afterwards). -/
def jsonDumpKvs : List (String × PyVal) → List (String × String)
  | [] => []
  | (k, v) :: rest => (k, jsonDump v) :: jsonDumpKvs rest

end

/-- Truncation to 32 bits. -/
def u32 (n : ℕ) : ℕ := n % 4294967296

/-- 32-bit rotate right. -/
def rotr (x n : ℕ) : ℕ := u32 ((x >>> n) ||| (x <<< (32 - n)))

/-- SHA-256 sigma functions. -/
def bigSigma0 (x : ℕ) : ℕ := rotr x 2 ^^^ rotr x 13 ^^^ rotr x 22

/-- SHA-256 sigma functions. -/
def bigSigma1 (x : ℕ) : ℕ := rotr x 6 ^^^ rotr x 11 ^^^ rotr x 25

/-- SHA-256 sigma functions. -/
def smallSigma0 (x : ℕ) : ℕ := rotr x 7 ^^^ rotr x 18 ^^^ (x >>> 3)

/-- SHA-256 sigma functions. -/
def smallSigma1 (x : ℕ) : ℕ := rotr x 17 ^^^ rotr x 19 ^^^ (x >>> 10)

/-- SHA-256 choose. -/
def chFn (x y z : ℕ) : ℕ := (x &&& y) ^^^ ((x ^^^ 4294967295) &&& z)

/-- SHA-256 majority. -/
def majFn (x y z : ℕ) : ℕ := (x &&& y) ^^^ (x &&& z) ^^^ (y &&& z)

/-- SHA-256 round constants. -/
def shaK : List ℕ :=
  [1116352408, 1899447441, 3049323471, 3921009573, 961987163, 1508970993,
   2453635748, 2870763221, 3624381080, 310598401, 607225278, 1426881987,
   1925078388, 2162078206, 2614888103, 3248222580, 3835390401, 4022224774,
   264347078, 604807628, 770255983, 1249150122, 1555081692, 1996064986,
   2554220882, 2821834349, 2952996808, 3210313671, 3336571891, 3584528711,
   113926993, 338241895, 666307205, 773529912, 1294757372, 1396182291,
   1695183700, 1986661051, 2177026350, 2456956037, 2730485921, 2820302411,
   3259730800, 3345764771, 3516065817, 3600352804, 4094571909, 275423344,
   430227734, 506948616, 659060556, 883997877, 958139571, 1322822218,
   1537002063, 1747873779, 1955562222, 2024104815, 2227730452, 2361852424,
   2428436474, 2756734187, 3204031479, 3329325298]

/-- SHA-256 initial hash state. -/
def shaH0 : List ℕ :=
  [1779033703, 3144134277, 1013904242, 2773480762,
   1359893119, 2600822924, 528734635, 1541459225]

/-- Big-endian 8-byte length field. -/
def lenBytes (n : ℕ) : List ℕ :=
  (List.range 8).map (fun i => n / 2 ^ (8 * (7 - i)) % 256)

/-- SHA-256 padding: `0x80`, zeros to 56 mod 64, 8-byte bit length. -/
def shaPad (msg : List ℕ) : List ℕ :=
  msg ++ 128 :: List.replicate ((120 - (msg.length + 1) % 64) % 64) 0 ++ lenBytes (8 * msg.length)

/-- Big-endian 32-bit words from bytes. -/
def bytesToWords : List ℕ → List ℕ
  | b0 :: b1 :: b2 :: b3 :: rest => (((b0 * 256 + b1) * 256 + b2) * 256 + b3) :: bytesToWords rest
  | _ => []

/-- 64-byte blocks. -/
def chunks64 : List ℕ → List (List ℕ)
  | [] => []
  | b :: rest => (b :: rest).take 64 :: chunks64 ((b :: rest).drop 64)
termination_by l => l.length
decreasing_by simp; omega

/-- Message-schedule extension (append `fuel` more words). -/
def shaExtendAux : List ℕ → ℕ → List ℕ
  | w, 0 => w
  | w, fuel + 1 =>
      let i := w.length
      let nw := u32 (smallSigma1 (w.getD (i - 2) 0) + w.getD (i - 7) 0 +
        smallSigma0 (w.getD (i - 15) 0) + w.getD (i - 16) 0)
      shaExtendAux (w ++ [nw]) fuel

/-- The 64-word message schedule. -/
def shaSchedule (w16 : List ℕ) : List ℕ := shaExtendAux w16 48

/-- SHA-256 working state. -/
abbrev ShaState := ℕ × ℕ × ℕ × ℕ × ℕ × ℕ × ℕ × ℕ

/-- One SHA-256 round. -/
def shaRound (st : ShaState) (kt wt : ℕ) : ShaState :=
  match st with
  | (a, b, c, d, e, f, g, h) =>
      let t1 := u32 (h + bigSigma1 e + chFn e f g + kt + wt)
      let t2 := u32 (bigSigma0 a + majFn a b c)
      (u32 (t1 + t2), a, b, c, u32 (d + t1), e, f, g)

/-- Fold the rounds over constants and schedule. -/
def shaRounds : ShaState → List ℕ → List ℕ → ShaState
  | st, k :: ks, w :: ws => shaRounds (shaRound st k w) ks ws
  | st, _, _ => st

/-- Compression of one 64-byte block into the hash state. -/
def shaBlock (h : List ℕ) (block : List ℕ) : List ℕ :=
  match h with
  | [h0, h1, h2, h3, h4, h5, h6, h7] =>
      match shaRounds (h0, h1, h2, h3, h4, h5, h6, h7) shaK (shaSchedule (bytesToWords block)) with
      | (a, b, c, d, e, f, g, hh) =>
          [u32 (h0 + a), u32 (h1 + b), u32 (h2 + c), u32 (h3 + d),
           u32 (h4 + e), u32 (h5 + f), u32 (h6 + g), u32 (h7 + hh)]
  | _ => h

/-- SHA-256 of a byte string, as bytes. -/
def sha256Bytes (msg : List ℕ) : List ℕ :=
  (((chunks64 (shaPad msg)).foldl shaBlock shaH0).map
    (fun w => [w / 16777216 % 256, w / 65536 % 256, w / 256 % 256, w % 256])).flatten

/-- HMAC-SHA256 (`hmac.new(key, msg, hashlib.sha256)`), as bytes. -/
def hmacSha256 (key msg : List ℕ) : List ℕ :=
  let k0 := if 64 < key.length then sha256Bytes key else key
  let kp := k0 ++ List.replicate (64 - k0.length) 0
  sha256Bytes ((kp.map (fun b => b ^^^ 92)) ++
    sha256Bytes ((kp.map (fun b => b ^^^ 54)) ++ msg))

/-- `_serialize_for_signing`: deterministic JSON bytes of the message. -/
def serialize_for_signing (m : PyDict) : List ℕ := utf8Bytes (jsonDump (.vDict m))

/-- `sign_message`: hex HMAC-SHA256 of the deterministic serialization
under the secret. -/
def sign_message (m : PyDict) (secret : String) : String :=
  bytesHex (hmacSha256 (utf8Bytes secret) (serialize_for_signing m))

/-- `verify_signature`: recompute and compare (`hmac.compare_digest` is
functionally equality; it is constant-time in Python, which has no
observable counterpart here). -/
def verify_signature (m : PyDict) (signature : String) (secret : String) : Bool :=
  sign_message m secret == signature

/-! ### Helpers for stating the claims -/
/-- Success test for `Except` (decidable observation). -/
def exceptIsOk {α : Type} : Except String α → Bool
  | .ok _ => true
  | .error _ => false

/-- The first line item of a record, when `line_items` is a list headed
by a dict (observation helper for concrete statements). -/
def firstItem (d : PyDict) : PyDict :=
  match dget d "line_items" with
  | some (.vList (.vDict kvs :: _)) => kvs
  | _ => []

/-- The `(quantity, unit_price, total)` floats of a line item, when all
three are present as floats (the shape normalization produces on
schema-conforming records). -/
def tripleOf (v : PyVal) : Option (ℚ × ℚ × ℚ) :=
  match v with
  | .vDict kvs =>
      match obsFloat (dget kvs "quantity"), obsFloat (dget kvs "unit_price"),
          obsFloat (dget kvs "total") with
      | some q, some u, some t => some (q, u, t)
      | _, _, _ => Option.none
  | _ => Option.none

/-- Elementwise optional map. -/
def mapOpt {α β : Type} (f : α → Option β) : List α → Option (List β)
  | [] => some []
  | x :: xs =>
      match f x, mapOpt f xs with
      | some y, some ys => some (y :: ys)
      | _, _ => Option.none

/-- The mismatch messages `validate_business_rules` produces for a list
of line-item triples, starting at index `k`. -/
def mismatches : List (ℚ × ℚ × ℚ) → ℕ → List String
  | [], _ => []
  | (q, u, t) :: rest, k =>
      (if t ≠ qMul q u then [lineItemMismatchMsg k (qMul q u) (.vFloat t)] else []) ++
        mismatches rest (k + 1)

/-- A label-number group, when matched, converts to float. -/
def numGroupOkB : Option String → Bool
  | some g => (parseFloatStr (stripCommas g)).isSome
  | Option.none => true

/-- All numeric groups of a line-item match convert to float. -/
def lineGroupsOkB (g : String × String × String × String) : Bool :=
  (parseFloatStr g.1).isSome && (parseFloatStr (stripCommas g.2.2.1)).isSome &&
    (parseFloatStr (stripCommas g.2.2.2)).isSome

/-! ### Concrete inputs used by witnesses and counterexamples -/
/-- A well-formed record whose numeric fields are strings (exercises the
in-place coercion of the shared line-item dicts). -/
def recStrNums : PyDict :=
  [("invoice_number", .vStr "INV-1"), ("date", .vStr "2020-01-02"), ("vendor", .vStr "v"),
   ("line_items", .vList [.vDict [("description", .vStr "a"), ("quantity", .vStr "2"),
     ("unit_price", .vStr "3"), ("total", .vStr "6")]]),
   ("subtotal", .vInt 6), ("tax", .vInt 1), ("total", .vInt 7)]

/-- A minimal record that passes every check (no line items). -/
def recPass : PyDict :=
  [("invoice_number", .vStr "INV-1"), ("date", .vStr "2020-01-02"), ("vendor", .vStr "v"),
   ("line_items", .vList []), ("subtotal", .vInt 0), ("tax", .vInt 0), ("total", .vInt 0)]

/-- `recPass` after normalization. -/
def recPassNorm : PyDict :=
  [("invoice_number", .vStr "INV-1"), ("date", .vStr "2020-01-02"), ("vendor", .vStr "v"),
   ("line_items", .vList []), ("subtotal", .vFloat 0), ("tax", .vFloat 0), ("total", .vFloat 0)]

/-- The `run_data` result for `recPass`. -/
def recPassResult : RunResult :=
  { status := "PASS", valid := true, schema_errors := [], date_errors := [],
    business_errors := [], custom_errors := [], normalized_data := some recPassNorm }

/-- A record missing only `invoice_number`. -/
def recNoInvNo : PyDict :=
  [("date", .vStr "2020-01-02"), ("vendor", .vStr "v"), ("line_items", .vList []),
   ("subtotal", .vInt 0), ("tax", .vInt 0), ("total", .vInt 0)]

/-- `recNoInvNo`'s `run_data` result. -/
def recNoInvNoResult : RunResult :=
  { status := "FAIL", valid := false, schema_errors := [reqErr "invoice_number" []],
    date_errors := [], business_errors := [], custom_errors := [],
    normalized_data := some
      [("date", .vStr "2020-01-02"), ("vendor", .vStr "v"), ("line_items", .vList []),
       ("subtotal", .vFloat 0), ("tax", .vFloat 0), ("total", .vFloat 0)] }

/-- A record passing schema whose date is in the future. -/
def recFuture : PyDict :=
  [("invoice_number", .vStr "INV-1"), ("date", .vStr "2999-01-02"), ("vendor", .vStr "v"),
   ("line_items", .vList []), ("subtotal", .vInt 0), ("tax", .vInt 0), ("total", .vInt 0)]

/-- `recFuture` after normalization. -/
def recFutureNorm : PyDict :=
  [("invoice_number", .vStr "INV-1"), ("date", .vStr "2999-01-02"), ("vendor", .vStr "v"),
   ("line_items", .vList []), ("subtotal", .vFloat 0), ("tax", .vFloat 0), ("total", .vFloat 0)]

/-- `recStrNums` after normalization. -/
def recStrNumsNorm : PyDict :=
  [("invoice_number", .vStr "INV-1"), ("date", .vStr "2020-01-02"), ("vendor", .vStr "v"),
   ("line_items", .vList [.vDict [("description", .vStr "a"), ("quantity", .vFloat 2),
     ("unit_price", .vFloat 3), ("total", .vFloat 6)]]),
   ("subtotal", .vFloat 6), ("tax", .vFloat 1), ("total", .vFloat 7)]

/-- The caller's dict after `run_data recStrNums`: top-level values
unchanged, line-item numbers coerced in place. -/
def recStrNumsAfter : PyDict :=
  [("invoice_number", .vStr "INV-1"), ("date", .vStr "2020-01-02"), ("vendor", .vStr "v"),
   ("line_items", .vList [.vDict [("description", .vStr "a"), ("quantity", .vFloat 2),
     ("unit_price", .vFloat 3), ("total", .vFloat 6)]]),
   ("subtotal", .vInt 6), ("tax", .vInt 1), ("total", .vInt 7)]

/-- The `run_data` result record for `recStrNums`. -/
def recStrNumsResult : RunResult :=
  { status := "PASS", valid := true, schema_errors := [], date_errors := [],
    business_errors := [], custom_errors := [], normalized_data := some recStrNumsNorm }

/-- A record passing schema and date checks whose only line item stores
total 7 instead of 2 * 3. -/
def recBadTotal : PyDict :=
  [("invoice_number", .vStr "INV-1"), ("date", .vStr "2020-01-02"), ("vendor", .vStr "v"),
   ("line_items", .vList [.vDict [("description", .vStr "a"), ("quantity", .vInt 2),
     ("unit_price", .vInt 3), ("total", .vInt 7)]]),
   ("subtotal", .vInt 7), ("tax", .vInt 1), ("total", .vInt 8)]

/-- `recBadTotal` after normalization. -/
def recBadTotalNorm : PyDict :=
  [("invoice_number", .vStr "INV-1"), ("date", .vStr "2020-01-02"), ("vendor", .vStr "v"),
   ("line_items", .vList [.vDict [("description", .vStr "a"), ("quantity", .vFloat 2),
     ("unit_price", .vFloat 3), ("total", .vFloat 7)]]),
   ("subtotal", .vFloat 7), ("tax", .vFloat 1), ("total", .vFloat 8)]

/-- The caller's dict after `run_data recBadTotal`. -/
def recBadTotalAfter : PyDict :=
  [("invoice_number", .vStr "INV-1"), ("date", .vStr "2020-01-02"), ("vendor", .vStr "v"),
   ("line_items", .vList [.vDict [("description", .vStr "a"), ("quantity", .vFloat 2),
     ("unit_price", .vFloat 3), ("total", .vFloat 7)]]),
   ("subtotal", .vInt 7), ("tax", .vInt 1), ("total", .vInt 8)]

/-- The value transformation `normStep2` applies to the vendor field. -/
def vendorNormVal : PyVal → PyVal
  | .vStr s => .vStr (pyStrip s)
  | v => v


@[simp] theorem dget_nil (k : String) : dget [] k = Option.none := rfl

theorem dget_cons (k' : String) (v : PyVal) (rest : PyDict) (k : String) :
    dget ((k', v) :: rest) k = if k' = k then some v else dget rest k := rfl

/-- Setting key `k` does not change lookups of other keys. -/
theorem dget_dset_ne (d : PyDict) (k f : String) (v : PyVal) (h : f ≠ k) :
    dget (dset d k v) f = dget d f := by
  induction d with
  | nil =>
      simp only [dset, dget]
      rw [if_neg (Ne.symm h)]
  | cons kv rest ih =>
      obtain ⟨k', v'⟩ := kv
      by_cases hk : k' = k
      · subst hk
        simp only [dset, if_pos rfl, dget]
        rw [if_neg (Ne.symm h), if_neg (Ne.symm h)]
      · simp only [dset, if_neg hk, dget]
        by_cases hf : k' = f
        · rw [if_pos hf, if_pos hf]
        · rw [if_neg hf, if_neg hf, ih]

/-- Looking up the key just set yields the new value. -/
theorem dget_dset_self (d : PyDict) (k : String) (v : PyVal) :
    dget (dset d k v) k = some v := by
  induction d with
  | nil => simp [dset, dget]
  | cons kv rest ih =>
      obtain ⟨k', v'⟩ := kv
      by_cases hk : k' = k
      · subst hk; simp [dset, dget]
      · simp only [dset, if_neg hk, dget]
        exact ih

/-- Re-assigning a key its current value leaves the dict unchanged. -/
theorem dset_self (d : PyDict) (k : String) (v : PyVal)
    (h : dget d k = some v) : dset d k v = d := by
  induction d with
  | nil => simp [dget] at h
  | cons kv rest ih =>
      obtain ⟨k', v'⟩ := kv
      by_cases hk : k' = k
      · subst hk
        have h' : v' = v := by simpa [dget] using h
        simp [dset, h']
      · simp only [dget, if_neg hk] at h
        simp [dset, hk, ih h]

/-- Setting key `k` and then removing it is the same as removing it. -/
theorem dremove_dset (d : PyDict) (k : String) (v : PyVal) :
    dremove (dset d k v) k = dremove d k := by
  induction d with
  | nil => simp [dset, dremove]
  | cons kv rest ih =>
      obtain ⟨k', v'⟩ := kv
      by_cases hk : k' = k
      · subst hk
        simp [dset, dremove]
      · simp [dset, dremove, hk, ih]

/-- Key presence is preserved by `dset`. -/
theorem dget_dset_isSome (d : PyDict) (k f : String) (v : PyVal)
    (h : (dget d f).isSome) : (dget (dset d k v) f).isSome := by
  by_cases hf : f = k
  · subst hf; simp [dget_dset_self]
  · rwa [dget_dset_ne d k f v hf]

theorem qMul_eq (a b : ℚ) : qMul a b = a * b := by
  rw [qMul, Rat.mul_def, Rat.normalize_eq_mkRat]

theorem qAdd_eq (a b : ℚ) : qAdd a b = a + b := (Rat.add_def' a b).symm

theorem qDiv_eq (a b : ℚ) : qDiv a b = a / b := (Rat.div_def' a b).symm

theorem qNeg_eq (a : ℚ) : qNeg a = -a := by
  rw [qNeg, ← Rat.neg_mkRat, Rat.mkRat_self]

theorem digitChar_isDigit (n : ℕ) : isDigitB (digitChar n) = true := by
  have h : n % 10 < 10 := Nat.mod_lt _ (by norm_num)
  unfold digitChar
  set k := n % 10 with hk
  interval_cases k <;> decide

theorem digitVal_digitChar (n : ℕ) : digitVal (digitChar n) = n % 10 := by
  have h : n % 10 < 10 := Nat.mod_lt _ (by norm_num)
  unfold digitChar digitVal
  set k := n % 10 with hk
  interval_cases k <;> decide

theorem digitVal_le_of_isDigit (c : Char) (h : isDigitB c = true) : digitVal c ≤ 9 := by
  simp only [isDigitB, Bool.and_eq_true, decide_eq_true_eq] at h
  unfold digitVal
  omega

theorem digitChar_ne_slash (n : ℕ) : (digitChar n = '/') = False := by
  have h : n % 10 < 10 := Nat.mod_lt _ (by norm_num)
  unfold digitChar
  set k := n % 10 with hk
  simp only [eq_iff_iff, iff_false]
  interval_cases k <;> decide

theorem digitChar_ne_dash (n : ℕ) : (digitChar n = '-') = False := by
  have h : n % 10 < 10 := Nat.mod_lt _ (by norm_num)
  unfold digitChar
  set k := n % 10 with hk
  simp only [eq_iff_iff, iff_false]
  interval_cases k <;> decide

theorem strip_list_idem {α : Type} (p : α → Bool) (l : List α) :
    (((l.rdropWhile p).dropWhile p).rdropWhile p).dropWhile p
      = (l.rdropWhile p).dropWhile p := by
  by_cases hne : (l.rdropWhile p).dropWhile p = []
  · rw [hne]
    simp
  · obtain ⟨t, ht⟩ : (l.rdropWhile p).dropWhile p <:+ l.rdropWhile p :=
      List.dropWhile_suffix _
    have hwne : l.rdropWhile p ≠ [] := by
      intro hnil
      apply hne
      rw [hnil]
      simp
    have hru : ((l.rdropWhile p).dropWhile p).rdropWhile p
        = (l.rdropWhile p).dropWhile p := by
      rw [List.rdropWhile_eq_self_iff]
      intro h
      have hX : t ++ (l.rdropWhile p).dropWhile p ≠ [] :=
        List.append_ne_nil_of_right_ne_nil t hne
      have e1 : (t ++ (l.rdropWhile p).dropWhile p).getLast hX
          = (l.rdropWhile p).getLast hwne := List.getLast_congr hX hwne ht
      have e2 : (t ++ (l.rdropWhile p).dropWhile p).getLast hX
          = ((l.rdropWhile p).dropWhile p).getLast h := List.getLast_append' _ _ h
      rw [e2.symm.trans e1]
      exact List.rdropWhile_last_not p l hwne
    rw [hru, List.dropWhile_idempotent]

theorem pyStrip_idem (s : String) : pyStrip (pyStrip s) = pyStrip s :=
  congrArg String.mk (strip_list_idem isPySpace s.data)

theorem pyStrip_data (s : String) :
    (pyStrip s).data = (s.data.rdropWhile isPySpace).dropWhile isPySpace := rfl

theorem daysInMonth_le (y m : ℕ) : daysInMonth y m ≤ 31 := by
  unfold daysInMonth
  split
  · split <;> omega
  · split <;> omega

theorem parseISODate_bounds (s : String) (dt : Date) (h : parseISODate s = some dt) :
    dt.y < 10000 ∧ 1 ≤ dt.m ∧ dt.m ≤ 12 ∧ 1 ≤ dt.d ∧ dt.d ≤ daysInMonth dt.y dt.m := by
  unfold parseISODate at h
  split at h
  case isFalse => exact absurd h (by simp)
  case isTrue hcond =>
    split at h
    case isFalse => exact absurd h (by simp)
    case isTrue hrange =>
      simp only [Option.some.injEq] at h
      subst h
      simp only [isoShape, Bool.and_eq_true, decide_eq_true_eq] at hcond
      simp only [Bool.and_eq_true, decide_eq_true_eq] at hrange
      obtain ⟨⟨⟨⟨⟨⟨⟨⟨⟨⟨hlen, h0⟩, h1⟩, h2⟩, h3⟩, h4⟩, h5⟩, h6⟩, h7⟩, h8⟩, h9⟩ := hcond
      have b0 := digitVal_le_of_isDigit _ h0
      have b1 := digitVal_le_of_isDigit _ h1
      have b2 := digitVal_le_of_isDigit _ h2
      have b3 := digitVal_le_of_isDigit _ h3
      refine ⟨?_, hrange.1.1.1, hrange.1.1.2, hrange.1.2, hrange.2⟩
      simp only [dateY, digitAt] at b0 b1 b2 b3 ⊢
      omega

theorem parseISODate_length (s : String) (dt : Date) (h : parseISODate s = some dt) :
    s.data.length = 10 := by
  unfold parseISODate at h
  split at h
  case isFalse => exact absurd h (by simp)
  case isTrue hcond =>
    simp only [isoShape, Bool.and_eq_true, decide_eq_true_eq] at hcond
    exact hcond.1.1.1.1.1.1.1.1.1.1

theorem formatDate_roundtrip (dt : Date) (hy : dt.y < 10000) (hm1 : 1 ≤ dt.m)
    (hm2 : dt.m ≤ 12) (hd1 : 1 ≤ dt.d) (hd2 : dt.d ≤ daysInMonth dt.y dt.m) :
    parseISODate (formatDate dt) = some dt := by
  obtain ⟨y, m, d⟩ := dt
  replace hy : y < 10000 := hy
  replace hm1 : 1 ≤ m := hm1
  replace hm2 : m ≤ 12 := hm2
  replace hd1 : 1 ≤ d := hd1
  replace hd2 : d ≤ daysInMonth y m := hd2
  unfold parseISODate
  have hshape : isoShape (formatDate ⟨y, m, d⟩).data = true := by
    unfold isoShape formatDate fourDigits twoDigits
    simp only [List.cons_append, List.nil_append, charAt, isDigitAt,
      List.getD_cons_zero, List.getD_cons_succ, List.length_cons, List.length_nil,
      digitChar_isDigit, Bool.and_true, Bool.true_and, beq_self_eq_true]
    decide
  rw [if_pos hshape]
  have hy' : dateY (formatDate ⟨y, m, d⟩).data = y := by
    unfold dateY formatDate fourDigits twoDigits
    simp only [List.cons_append, List.nil_append, digitAt, charAt,
      List.getD_cons_zero, List.getD_cons_succ, digitVal_digitChar]
    omega
  have hm' : dateM (formatDate ⟨y, m, d⟩).data = m := by
    unfold dateM formatDate fourDigits twoDigits
    simp only [List.cons_append, List.nil_append, digitAt, charAt,
      List.getD_cons_zero, List.getD_cons_succ, digitVal_digitChar]
    omega
  have hd31 : d ≤ 31 := le_trans hd2 (daysInMonth_le y m)
  have hd' : dateD (formatDate ⟨y, m, d⟩).data = d := by
    unfold dateD formatDate fourDigits twoDigits
    simp only [List.cons_append, List.nil_append, digitAt, charAt,
      List.getD_cons_zero, List.getD_cons_succ, digitVal_digitChar]
    omega
  rw [hy', hm', hd']
  rw [if_pos]
  simp only [Bool.and_eq_true, decide_eq_true_eq]
  exact ⟨⟨⟨hm1, hm2⟩, hd1⟩, hd2⟩

theorem replaceSlash_formatDate (dt : Date) :
    replaceSlash (formatDate dt) = formatDate dt := by
  unfold replaceSlash formatDate fourDigits twoDigits
  simp only [List.cons_append, List.nil_append, List.map_cons, List.map_nil,
    digitChar_ne_slash, if_false]
  norm_num

@[simp] theorem parseFloatStr_empty : parseFloatStr "" = Option.none := rfl

@[simp] theorem pyFloat_vFloat (q : ℚ) : pyFloat (.vFloat q) = .ok q := rfl

/-! ### The claims -/
/-- C10: for every message dict `m`, signature string `sig` and secret
`s`, `verify_signature m (sign_message m s) s` is true, and
`verify_signature m sig s` is true exactly when `sig` is the hex
HMAC-SHA256 of `m`'s deterministic sorted-key JSON serialization under
`s`. -/
theorem sign_verify_characterization (m : PyDict) (s sig : String) :
    verify_signature m (sign_message m s) s = true ∧
      (verify_signature m sig s = true ↔
        sig = bytesHex (hmacSha256 (utf8Bytes s) (serialize_for_signing m))) := by
  constructor
  · simp [verify_signature]
  · simp only [verify_signature, sign_message, beq_iff_eq]
    exact eq_comm

/-- C1 (amended): `run_data` returns a result exactly when `normalize`
does not raise; every exception inside the schema / date / business /
custom sub-checks is caught and becomes an error-list entry, but an
exception from `normalize` (a numeric field that does not coerce to
float, or malformed line items) propagates uncaught with the same
message. -/
theorem run_data_error_iff_normalize_error (d : PyDict) (today : Date) (e : String) :
    run_data d today = .error e ↔ normalize d = .error e := by
  unfold run_data
  cases hn : normalize d with
  | error e' =>
      simp [Except.bind, hn]
  | ok p =>
      simp only [hn]
      constructor
      · intro h
        exfalso
        split at h
        · simp at h
        · split at h
          · simp at h
          · simp at h
      · intro h
        exact absurd h (by simp)

/-- C1, the claim as stated is false: on a record whose line-item
`quantity` is the non-numeric string `"abc"`, `run_data` raises
`ValueError` out of `normalize` instead of returning a
`ValidationResult`. -/
theorem run_data_raises_on_bad_quantity :
    Except.map (fun p => p.1.status)
      (run_data [("line_items", .vList [.vDict [("quantity", .vStr "abc")]])] ⟨2025, 10, 12⟩)
      = .error "could not convert string to float: \x27abc\x27" := by decide

/-- C9: every result `run_data` returns satisfies: `valid` is true iff
`status = "PASS"`, and `status = "PASS"` iff all four error lists are
empty. -/
theorem run_data_status_invariant (d : PyDict) (today : Date) (r : RunResult) (after : PyDict)
    (h : run_data d today = .ok (r, after)) :
    (r.valid = true ↔ r.status = "PASS") ∧
      (r.status = "PASS" ↔
        r.schema_errors = [] ∧ r.date_errors = [] ∧ r.business_errors = [] ∧
          r.custom_errors = []) := by
  unfold run_data at h
  cases hn : normalize d with
  | error e => rw [hn] at h; simp [Except.bind] at h
  | ok p =>
      rw [hn] at h
      simp only [Except.bind] at h
      split at h
      case isTrue hse =>
        simp only [Except.ok.injEq, Prod.mk.injEq] at h
        obtain ⟨h1, _⟩ := h
        subst h1
        simp only [Bool.not_eq_true', List.isEmpty_eq_false] at hse
        simp [hse]
      case isFalse hse =>
        split at h
        case isTrue hde =>
          simp only [Except.ok.injEq, Prod.mk.injEq] at h
          obtain ⟨h1, _⟩ := h
          subst h1
          simp only [Bool.not_eq_true', List.isEmpty_eq_false] at hde
          simp [hde]
        case isFalse hde =>
          simp only [Except.ok.injEq, Prod.mk.injEq] at h
          obtain ⟨h1, _⟩ := h
          subst h1
          by_cases hbe : (validate_business_rules p.1).isEmpty
          · by_cases hce : (validate_custom_rules p.1).isEmpty
            · simp_all [List.isEmpty_iff]
            · simp_all [List.isEmpty_iff]
          · by_cases hce : (validate_custom_rules p.1).isEmpty
            · simp_all [List.isEmpty_iff]
            · simp_all [List.isEmpty_iff]

theorem dget_normStep1_ne (d : PyDict) (f : String) (hf : f ≠ "date") :
    dget (normStep1 d) f = dget d f := by
  unfold normStep1
  cases hv : dget d "date" with
  | none => simp
  | some v => exact dget_dset_ne d "date" f _ hf

theorem dget_normStep2_ne (d : PyDict) (f : String) (hf : f ≠ "vendor") :
    dget (normStep2 d) f = dget d f := by
  unfold normStep2
  cases hv : dget d "vendor" with
  | none => simp
  | some v =>
      cases v with
      | vStr s => exact dget_dset_ne d "vendor" f _ hf
      | vNone => simp
      | vBool b => simp
      | vInt n => simp
      | vFloat q => simp
      | vList xs => simp
      | vDict kvs => simp

theorem numFields_missing (fs : List String) (d d' : PyDict) (f : String)
    (h : numFields fs d = .ok d') (hm : dget d f = Option.none) :
    dget d' f = Option.none := by
  induction fs generalizing d with
  | nil =>
      unfold numFields at h
      simp only [Except.ok.injEq] at h
      subst h
      exact hm
  | cons g gs ih =>
      unfold numFields at h
      cases hg : dget d g with
      | none => simp only [hg] at h; exact ih d h hm
      | some v =>
          simp only [hg] at h
          cases hq : pyFloat v with
          | error e => simp only [hq] at h; exact Except.noConfusion h
          | ok q =>
              simp only [hq] at h
              have hgf : g ≠ f := by
                intro he
                rw [he, hm] at hg
                exact Option.noConfusion hg
              refine ih _ h ?_
              rw [dget_dset_ne d g f _ (Ne.symm hgf)]
              exact hm

theorem numFields_other (fs : List String) (d d' : PyDict) (f : String)
    (h : numFields fs d = .ok d') (hf : f ∉ fs) : dget d' f = dget d f := by
  induction fs generalizing d with
  | nil =>
      unfold numFields at h
      simp only [Except.ok.injEq] at h
      subst h
      rfl
  | cons g gs ih =>
      have hfg : f ≠ g := by
        intro he
        exact hf (by rw [he]; exact List.mem_cons_self g gs)
      have hfgs : f ∉ gs := fun hmem => hf (List.mem_cons_of_mem g hmem)
      unfold numFields at h
      cases hg : dget d g with
      | none => simp only [hg] at h; exact ih d h hfgs
      | some v =>
          simp only [hg] at h
          cases hq : pyFloat v with
          | error e => simp only [hq] at h; exact Except.noConfusion h
          | ok q =>
              simp only [hq] at h
              rw [ih _ h hfgs, dget_dset_ne d g f _ hfg]

theorem normalize_missing (d nd after : PyDict) (f : String)
    (h : normalize d = .ok (nd, after)) (hm : dget d f = Option.none) :
    dget nd f = Option.none := by
  have h2 : dget (normStep2 (normStep1 d)) f = Option.none := by
    by_cases hd : f = "date"
    · subst hd
      rw [dget_normStep2_ne _ _ (by decide)]
      unfold normStep1
      rw [hm]
      exact hm
    · by_cases hv : f = "vendor"
      · subst hv
        have h1 : dget (normStep1 d) "vendor" = Option.none := by
          rw [dget_normStep1_ne _ _ (by decide)]
          exact hm
        unfold normStep2
        rw [h1]
        exact h1
      · rw [dget_normStep2_ne _ _ hv, dget_normStep1_ne _ _ hd]
        exact hm
  unfold normalize at h
  cases hli : dget (normStep2 (normStep1 d)) "line_items" with
  | none =>
      simp only [hli] at h
      cases hnf : numFields ["subtotal", "tax", "total"] (normStep2 (normStep1 d)) with
      | error e => simp only [hnf] at h; exact Except.noConfusion h
      | ok d3 =>
          simp only [hnf] at h
          simp only [Except.ok.injEq, Prod.mk.injEq] at h
          obtain ⟨h1, _⟩ := h
          subst h1
          exact numFields_missing _ _ _ _ hnf h2
  | some v =>
      simp only [hli] at h
      have hfli : f ≠ "line_items" := by
        intro he
        rw [he] at h2
        rw [h2] at hli
        exact Option.noConfusion hli
      cases hni : normItems v with
      | error e => simp only [hni] at h; exact Except.noConfusion h
      | ok v2 =>
          simp only [hni] at h
          cases hnf : numFields ["subtotal", "tax", "total"]
              (dset (normStep2 (normStep1 d)) "line_items" v2) with
          | error e => simp only [hnf] at h; exact Except.noConfusion h
          | ok d3 =>
              simp only [hnf] at h
              simp only [Except.ok.injEq, Prod.mk.injEq] at h
              obtain ⟨h1, _⟩ := h
              subst h1
              refine numFields_missing _ _ _ _ hnf ?_
              rw [dget_dset_ne _ _ _ _ hfli]
              exact h2

theorem requiredErrors_ne_nil (d : PyDict) (f : String) (hf : f ∈ requiredFields)
    (hm : dget d f = Option.none) : requiredErrors d ≠ [] := by
  intro hnil
  unfold requiredErrors at hnil
  rw [List.filterMap_eq_nil_iff] at hnil
  have hfa := hnil f hf
  rw [hm] at hfa
  simp at hfa

/-- C3 (amended): for every record missing a required top-level field on
which normalization succeeds (so that `run_data` returns at all), the
result is `status = "FAIL"` with a non-empty `schema_errors` list and
empty `date_errors` / `business_errors` / `custom_errors` — the later
validation stages are skipped. -/
theorem missing_required_field_fails_schema (d : PyDict) (today : Date) (r : RunResult)
    (after : PyDict) (f : String) (hf : f ∈ requiredFields)
    (hmiss : dget d f = Option.none) (h : run_data d today = .ok (r, after)) :
    r.status = "FAIL" ∧ r.schema_errors ≠ [] ∧ r.date_errors = [] ∧
      r.business_errors = [] ∧ r.custom_errors = [] := by
  unfold run_data at h
  cases hn : normalize d with
  | error e => rw [hn] at h; exact Except.noConfusion h
  | ok p =>
      simp only [hn] at h
      have hmiss1 : dget p.1 f = Option.none := by
        obtain ⟨nd, after'⟩ := p
        exact normalize_missing d nd after' f hn hmiss
      have hse : validate_schema p.1 ≠ [] := by
        intro hnil
        unfold validate_schema at hnil
        simp only [List.append_eq_nil] at hnil
        exact requiredErrors_ne_nil p.1 f hf hmiss1 hnil.1.1.1.1.1.1.1
      have hcond : (!(validate_schema p.1).isEmpty) = true := by
        simp only [Bool.not_eq_true', List.isEmpty_eq_false]
        exact hse
      rw [if_pos hcond] at h
      simp only [Except.ok.injEq, Prod.mk.injEq] at h
      obtain ⟨h1, _⟩ := h
      subst h1
      exact ⟨rfl, hse, rfl, rfl, rfl⟩

/-- C3, witness: a record missing `invoice_number`. -/
theorem missing_required_field_fails_schema_witness :
    recNoInvNoResult.status = "FAIL" ∧ recNoInvNoResult.schema_errors ≠ [] ∧
      recNoInvNoResult.date_errors = [] ∧ recNoInvNoResult.business_errors = [] ∧
      recNoInvNoResult.custom_errors = [] :=
  missing_required_field_fails_schema recNoInvNo ⟨2025, 10, 12⟩ recNoInvNoResult recNoInvNo
    "invoice_number" (by decide) (by rfl) (by rfl)

/-- C3, the claim as stated is false: a record that both misses required
fields and has a non-coercible `subtotal` makes `run_data` raise instead
of returning `status = "FAIL"` with schema errors. -/
theorem missing_field_record_can_raise :
    Except.map (fun p => p.1.status)
      (run_data [("subtotal", .vStr "abc")] ⟨2025, 10, 12⟩)
      = .error "could not convert string to float: \x27abc\x27" := by decide

theorem schema_ok_date_string (d : PyDict) (h : validate_schema d = []) :
    ∃ s, dget d "date" = some (.vStr s) := by
  unfold validate_schema at h
  simp only [List.append_eq_nil] at h
  obtain ⟨⟨⟨⟨⟨⟨⟨hreq, hinv⟩, hdate⟩, hven⟩, hli⟩, hsub⟩, htax⟩, htot⟩ := h
  unfold requiredErrors at hreq
  rw [List.filterMap_eq_nil_iff] at hreq
  have hp := hreq "date" (by decide)
  have hsome : (dget d "date").isSome := by
    by_contra hc
    simp only [Bool.not_eq_true] at hc
    rw [hc] at hp
    simp at hp
  obtain ⟨v, hv⟩ := Option.isSome_iff_exists.mp hsome
  unfold checkStrProp at hdate
  rw [hv] at hdate
  cases v with
  | vStr s => exact ⟨s, hv⟩
  | vNone => simp [isStrTy] at hdate
  | vBool b => simp [isStrTy] at hdate
  | vInt n => simp [isStrTy] at hdate
  | vFloat q => simp [isStrTy] at hdate
  | vList xs => simp [isStrTy] at hdate
  | vDict kvs => simp [isStrTy] at hdate

/-- C4: a record that passes the schema check and whose date parses to a
calendar date strictly after today fails with exactly the future-date
error; the business-rule and custom-rule checks are not executed. -/
theorem future_date_fails (d : PyDict) (today : Date) (nd after : PyDict) (dt : Date)
    (hn : normalize d = .ok (nd, after))
    (hs : validate_schema nd = [])
    (hp : parseISODate (replaceSlash (pyStrOf (dgetD nd "date" .vNone))) = some dt)
    (hfut : dateLt today dt = true) :
    run_data d today = .ok
      ({ status := "FAIL", valid := false, schema_errors := [],
         date_errors :=
           ["Invoice date " ++ pyStrOf (dgetD nd "date" .vNone) ++ " is in the future"],
         business_errors := [], custom_errors := [], normalized_data := some nd }, after) := by
  obtain ⟨s, hds⟩ := schema_ok_date_string nd hs
  have hgetD : dgetD nd "date" .vNone = .vStr s := by
    unfold dgetD
    rw [hds]
    rfl
  rw [hgetD] at hp ⊢
  have hp' : parseISODate (replaceSlash s) = some dt := hp
  have hne : s ≠ "" := by
    intro he
    subst he
    have hlen := parseISODate_length _ _ hp'
    simp [replaceSlash] at hlen
  have hde : validate_dates nd today =
      ["Invoice date " ++ pyStrOf (.vStr s) ++ " is in the future"] := by
    have htr : pyTruthy (.vStr s) = true := by
      simp [pyTruthy, hne]
    unfold validate_dates
    simp only [hds, htr, Bool.not_true, Bool.false_eq_true, if_false, pyStrOf, hp', hfut,
      if_true]
  unfold run_data
  simp only [hn]
  rw [hs]
  simp only [List.isEmpty_nil, Bool.not_true, Bool.false_eq_true, if_false]
  rw [hde]
  simp

/-- C4, witness at a concrete record dated 2999-01-02 against today
2025-10-12. -/
theorem future_date_fails_witness :
    run_data recFuture ⟨2025, 10, 12⟩ = .ok
      ({ status := "FAIL", valid := false, schema_errors := [],
         date_errors :=
           ["Invoice date " ++ pyStrOf (dgetD recFutureNorm "date" .vNone) ++ " is in the future"],
         business_errors := [], custom_errors := [], normalized_data := some recFutureNorm },
       recFuture) :=
  future_date_fails recFuture ⟨2025, 10, 12⟩ recFutureNorm recFuture ⟨2999, 1, 2⟩
    (by rfl) (by rfl) (by rfl) (by rfl)

theorem normalize_frame (d nd after : PyDict) (h : normalize d = .ok (nd, after)) :
    dremove after "line_items" = dremove d "line_items" ∧
      dget nd "line_items" = dget after "line_items" := by
  unfold normalize at h
  cases hli : dget (normStep2 (normStep1 d)) "line_items" with
  | none =>
      simp only [hli] at h
      cases hnf : numFields ["subtotal", "tax", "total"] (normStep2 (normStep1 d)) with
      | error e => simp only [hnf] at h; exact Except.noConfusion h
      | ok d3 =>
          simp only [hnf] at h
          simp only [Except.ok.injEq, Prod.mk.injEq] at h
          obtain ⟨h1, h2⟩ := h
          subst h1
          subst h2
          refine ⟨rfl, ?_⟩
          have hd : dget d "line_items" = Option.none := by
            rw [← dget_normStep1_ne d "line_items" (by decide),
              ← dget_normStep2_ne _ "line_items" (by decide)]
            exact hli
          rw [numFields_other _ _ _ _ hnf (by decide), hli, hd]
  | some v =>
      simp only [hli] at h
      cases hni : normItems v with
      | error e => simp only [hni] at h; exact Except.noConfusion h
      | ok v2 =>
          simp only [hni] at h
          cases hnf : numFields ["subtotal", "tax", "total"]
              (dset (normStep2 (normStep1 d)) "line_items" v2) with
          | error e => simp only [hnf] at h; exact Except.noConfusion h
          | ok d3 =>
              simp only [hnf] at h
              simp only [Except.ok.injEq, Prod.mk.injEq] at h
              obtain ⟨h1, h2⟩ := h
              subst h1
              subst h2
              refine ⟨dremove_dset d "line_items" v2, ?_⟩
              rw [numFields_other _ _ _ _ hnf (by decide), dget_dset_self, dget_dset_self]

/-- C2 (amended): `run_data` works on a shallow copy of its input, so
after a successful call every top-level entry of the caller's mapping
other than `line_items` is unchanged, while the line-item dicts are
shared with the normalized record and mutated in place: the caller's
`line_items` equals the normalized record's `line_items` (each item's
`quantity`, `unit_price` and `total` overwritten with float
coercions). -/
theorem run_data_frame_effect (d : PyDict) (today : Date) (r : RunResult) (after : PyDict)
    (h : run_data d today = .ok (r, after)) :
    dremove after "line_items" = dremove d "line_items" ∧
      r.normalized_data.bind (fun nd => dget nd "line_items") = dget after "line_items" := by
  unfold run_data at h
  cases hn : normalize d with
  | error e => simp only [hn] at h; exact Except.noConfusion h
  | ok p =>
      simp only [hn] at h
      have hfr := normalize_frame d p.1 p.2 (by rw [hn])
      split at h
      · simp only [Except.ok.injEq, Prod.mk.injEq] at h
        obtain ⟨h1, h2⟩ := h
        subst h1
        subst h2
        exact ⟨hfr.1, by simpa [Option.bind] using hfr.2⟩
      · split at h
        · simp only [Except.ok.injEq, Prod.mk.injEq] at h
          obtain ⟨h1, h2⟩ := h
          subst h1
          subst h2
          exact ⟨hfr.1, by simpa [Option.bind] using hfr.2⟩
        · simp only [Except.ok.injEq, Prod.mk.injEq] at h
          obtain ⟨h1, h2⟩ := h
          subst h1
          subst h2
          exact ⟨hfr.1, by simpa [Option.bind] using hfr.2⟩

/-- C2, witness: the frame effect at `recStrNums`. -/
theorem run_data_frame_effect_witness :
    dremove recStrNumsAfter "line_items" = dremove recStrNums "line_items" ∧
      recStrNumsResult.normalized_data.bind (fun nd => dget nd "line_items")
        = dget recStrNumsAfter "line_items" :=
  run_data_frame_effect recStrNums ⟨2025, 10, 12⟩ recStrNumsResult recStrNumsAfter (by rfl)

/-- C2, the claim as stated is false: after `run_data` on a record whose
first line item has `quantity` the string `"2"`, the caller's own line
item holds the float `2.0` instead of the original string. -/
theorem run_data_mutates_caller_input :
    Except.map (fun p => obsFloat (dget (firstItem p.2) "quantity"))
        (run_data recStrNums ⟨2025, 10, 12⟩) = .ok (some 2) ∧
      obsStr (dget (firstItem recStrNums) "quantity") = some "2" ∧
      obsFloat (dget (firstItem recStrNums) "quantity") = Option.none := by
  refine ⟨by decide, by decide, by decide⟩

theorem obsFloat_eq_some (o : Option PyVal) (q : ℚ) (h : obsFloat o = some q) :
    o = some (.vFloat q) := by
  cases o with
  | none => simp [obsFloat] at h
  | some v =>
      cases v with
      | vFloat q' => simp only [obsFloat, Option.some.injEq] at h; rw [h]
      | vNone => simp [obsFloat] at h
      | vBool b => simp [obsFloat] at h
      | vInt n => simp [obsFloat] at h
      | vStr s => simp [obsFloat] at h
      | vList xs => simp [obsFloat] at h
      | vDict kvs => simp [obsFloat] at h

theorem tripleOf_some (x : PyVal) (tr : ℚ × ℚ × ℚ) (h : tripleOf x = some tr) :
    ∃ kvs, x = .vDict kvs ∧ dget kvs "quantity" = some (.vFloat tr.1) ∧
      dget kvs "unit_price" = some (.vFloat tr.2.1) ∧
      dget kvs "total" = some (.vFloat tr.2.2) := by
  cases x with
  | vDict kvs =>
      unfold tripleOf at h
      cases hq : obsFloat (dget kvs "quantity") with
      | none => simp only [hq] at h; exact Option.noConfusion h
      | some q =>
          cases hu : obsFloat (dget kvs "unit_price") with
          | none => simp only [hq, hu] at h; exact Option.noConfusion h
          | some u =>
              cases ht : obsFloat (dget kvs "total") with
              | none => simp only [hq, hu, ht] at h; exact Option.noConfusion h
              | some t =>
                  simp only [hq, hu, ht, Option.some.injEq] at h
                  subst h
                  exact ⟨kvs, rfl, obsFloat_eq_some _ _ hq, obsFloat_eq_some _ _ hu,
                    obsFloat_eq_some _ _ ht⟩
  | vNone => simp [tripleOf] at h
  | vBool b => simp [tripleOf] at h
  | vInt n => simp [tripleOf] at h
  | vFloat q => simp [tripleOf] at h
  | vStr s => simp [tripleOf] at h
  | vList xs => simp [tripleOf] at h

theorem bizLoop_triples (xs : List PyVal) (ts : List (ℚ × ℚ × ℚ)) (k : ℕ)
    (h : mapOpt tripleOf xs = some ts) :
    bizLoop xs k = (mismatches ts k, Option.none) := by
  induction xs generalizing ts k with
  | nil =>
      unfold mapOpt at h
      simp only [Option.some.injEq] at h
      subst h
      rfl
  | cons x xs ih =>
      unfold mapOpt at h
      cases ht : tripleOf x with
      | none => simp only [ht] at h; exact Option.noConfusion h
      | some tr =>
          cases hrest : mapOpt tripleOf xs with
          | none => simp only [ht, hrest] at h; exact Option.noConfusion h
          | some ts' =>
              simp only [ht, hrest, Option.some.injEq] at h
              subst h
              obtain ⟨q, u, t⟩ := tr
              obtain ⟨kvs, hx, hgq, hgu, hgt⟩ := tripleOf_some x (q, u, t) ht
              subst hx
              unfold bizLoop
              simp only [pySub, hgq, hgu, hgt, pyFloat_vFloat, ih _ _ hrest, mismatches]

theorem mismatches_all_ok (ts : List (ℚ × ℚ × ℚ)) (k : ℕ)
    (h : ∀ x ∈ ts, x.2.2 = qMul x.1 x.2.1) : mismatches ts k = [] := by
  induction ts generalizing k with
  | nil => rfl
  | cons x ts ih =>
      obtain ⟨q, u, t⟩ := x
      have h0 : t = qMul q u := h _ (List.mem_cons_self _ _)
      unfold mismatches
      rw [if_neg (not_not_intro h0), List.nil_append]
      exact ih _ (fun x hx => h x (List.mem_cons_of_mem _ hx))

theorem mismatches_decomp (ts1 ts2 : List (ℚ × ℚ × ℚ)) (bad : ℚ × ℚ × ℚ) (k : ℕ)
    (h1 : ∀ x ∈ ts1, x.2.2 = qMul x.1 x.2.1)
    (h2 : ∀ x ∈ ts2, x.2.2 = qMul x.1 x.2.1)
    (hbad : bad.2.2 ≠ qMul bad.1 bad.2.1) :
    mismatches (ts1 ++ bad :: ts2) k
      = [lineItemMismatchMsg (k + ts1.length) (qMul bad.1 bad.2.1) (.vFloat bad.2.2)] := by
  induction ts1 generalizing k with
  | nil =>
      obtain ⟨q, u, t⟩ := bad
      simp only [List.nil_append]
      unfold mismatches
      rw [if_pos hbad, mismatches_all_ok ts2 _ h2]
      simp
  | cons x ts1 ih =>
      obtain ⟨q, u, t⟩ := x
      have h0 : t = qMul q u := h1 _ (List.mem_cons_self _ _)
      simp only [List.cons_append]
      unfold mismatches
      rw [if_neg (not_not_intro h0), List.nil_append,
        ih (k + 1) (fun x hx => h1 x (List.mem_cons_of_mem _ hx))]
      congr 2
      simp only [List.length_cons]
      omega

theorem sumTotals_triples (xs : List PyVal) (ts : List (ℚ × ℚ × ℚ)) (acc : ℚ)
    (h : mapOpt tripleOf xs = some ts) :
    sumTotals acc xs = .ok (List.foldl qAdd acc (ts.map (fun x => x.2.2))) := by
  induction xs generalizing ts acc with
  | nil =>
      unfold mapOpt at h
      simp only [Option.some.injEq] at h
      subst h
      rfl
  | cons x xs ih =>
      unfold mapOpt at h
      cases ht : tripleOf x with
      | none => simp only [ht] at h; exact Option.noConfusion h
      | some tr =>
          cases hrest : mapOpt tripleOf xs with
          | none => simp only [ht, hrest] at h; exact Option.noConfusion h
          | some ts' =>
              simp only [ht, hrest, Option.some.injEq] at h
              subst h
              obtain ⟨q, u, t⟩ := tr
              obtain ⟨kvs, hx, hgq, hgu, hgt⟩ := tripleOf_some x (q, u, t) ht
              subst hx
              unfold sumTotals
              simp only [pySub, hgt, pyFloat_vFloat, ih _ _ hrest, List.map_cons,
                List.foldl_cons]

/-- C5: a record passing the schema and date checks in which exactly one
line item's stored total differs from `quantity * unit_price` (all
other stored fields consistent with the stated identities) fails with
exactly that one business-rule mismatch message — naming the expected
and actual total — and the custom-rule check still executes, its
violations appearing in `custom_errors`. -/
theorem single_item_mismatch (d : PyDict) (today : Date) (nd after : PyDict)
    (xs : List PyVal) (ts1 ts2 : List (ℚ × ℚ × ℚ)) (bad : ℚ × ℚ × ℚ) (sb tx tt : ℚ)
    (hn : normalize d = .ok (nd, after))
    (hs : validate_schema nd = [])
    (hd : validate_dates nd today = [])
    (hli : dget nd "line_items" = some (.vList xs))
    (hts : mapOpt tripleOf xs = some (ts1 ++ bad :: ts2))
    (h1 : ∀ x ∈ ts1, x.2.2 = qMul x.1 x.2.1)
    (h2 : ∀ x ∈ ts2, x.2.2 = qMul x.1 x.2.1)
    (hbad : bad.2.2 ≠ qMul bad.1 bad.2.1)
    (hsb : obsFloat (dget nd "subtotal") = some sb)
    (htx : obsFloat (dget nd "tax") = some tx)
    (htt : obsFloat (dget nd "total") = some tt)
    (hsum : sb = List.foldl qAdd 0 ((ts1 ++ bad :: ts2).map (fun x => x.2.2)))
    (htote : tt = qAdd sb tx) :
    run_data d today = .ok
      ({ status := "FAIL", valid := false, schema_errors := [], date_errors := [],
         business_errors :=
           [lineItemMismatchMsg ts1.length (qMul bad.1 bad.2.1) (.vFloat bad.2.2)],
         custom_errors := validate_custom_rules nd, normalized_data := some nd }, after) := by
  have hbe : validate_business_rules nd =
      [lineItemMismatchMsg ts1.length (qMul bad.1 bad.2.1) (.vFloat bad.2.2)] := by
    unfold validate_business_rules bizChecks
    have hgetLi : dgetD nd "line_items" (.vList []) = .vList xs := by
      unfold dgetD
      rw [hli]
      rfl
    have hgetSb : dgetD nd "subtotal" (.vInt 0) = .vFloat sb := by
      unfold dgetD
      rw [obsFloat_eq_some _ _ hsb]
      rfl
    have hgetTx : dgetD nd "tax" (.vInt 0) = .vFloat tx := by
      unfold dgetD
      rw [obsFloat_eq_some _ _ htx]
      rfl
    have hgetTt : dgetD nd "total" (.vInt 0) = .vFloat tt := by
      unfold dgetD
      rw [obsFloat_eq_some _ _ htt]
      rfl
    rw [hgetLi]
    simp only [pyIter]
    rw [bizLoop_triples xs _ 0 hts, sumTotals_triples xs _ 0 hts]
    simp only [hgetSb, hgetTx, hgetTt, pyFloat_vFloat]
    rw [if_neg (not_not_intro hsum), if_neg (not_not_intro htote)]
    rw [mismatches_decomp ts1 ts2 bad 0 h1 h2 hbad]
    simp
  unfold run_data
  simp only [hn]
  rw [hs]
  simp only [List.isEmpty_nil, Bool.not_true, Bool.false_eq_true, if_false]
  rw [hd]
  simp only [List.isEmpty_nil, Bool.not_true, Bool.false_eq_true, if_false]
  rw [hbe]
  simp

/-- C5, witness at `recBadTotal`. -/
theorem single_item_mismatch_witness :
    run_data recBadTotal ⟨2025, 10, 12⟩ = .ok
      ({ status := "FAIL", valid := false, schema_errors := [], date_errors := [],
         business_errors := [lineItemMismatchMsg 0 (qMul 2 3) (.vFloat 7)],
         custom_errors := validate_custom_rules recBadTotalNorm,
         normalized_data := some recBadTotalNorm }, recBadTotalAfter) :=
  single_item_mismatch recBadTotal ⟨2025, 10, 12⟩ recBadTotalNorm recBadTotalAfter
    [.vDict [("description", .vStr "a"), ("quantity", .vFloat 2),
      ("unit_price", .vFloat 3), ("total", .vFloat 7)]]
    [] [] (2, 3, 7) 7 1 8
    (by rfl) (by rfl) (by rfl) (by rfl) (by rfl)
    (by decide) (by decide) (by decide) (by rfl) (by rfl) (by rfl) (by decide) (by decide)

theorem normDateVal_idem (v : PyVal) : normDateVal (normDateVal v) = normDateVal v := by
  cases hp : parseISODate (replaceSlash (pyStrOf v)) with
  | none =>
      have h1 : normDateVal v = v := by
        unfold normDateVal
        rw [hp]
      rw [h1]
      exact h1
  | some dt =>
      have h1 : normDateVal v = .vStr (formatDate dt) := by
        unfold normDateVal
        rw [hp]
      have hb := parseISODate_bounds _ _ hp
      have hr : parseISODate (replaceSlash (formatDate dt)) = some dt := by
        rw [replaceSlash_formatDate]
        exact formatDate_roundtrip dt hb.1 hb.2.1 hb.2.2.1 hb.2.2.2.1 hb.2.2.2.2
      rw [h1]
      unfold normDateVal
      rw [show pyStrOf (.vStr (formatDate dt)) = formatDate dt from rfl, hr]

theorem normStep1_dget_date (d : PyDict) :
    dget (normStep1 d) "date" = Option.map normDateVal (dget d "date") := by
  unfold normStep1
  cases h : dget d "date" with
  | none => simp [h]
  | some v => simp [h, dget_dset_self]

theorem normStep2_dget_vendor (d : PyDict) :
    dget (normStep2 d) "vendor" = Option.map vendorNormVal (dget d "vendor") := by
  unfold normStep2
  cases h : dget d "vendor" with
  | none => simp [h]
  | some v =>
      cases v with
      | vStr s => simp [h, dget_dset_self, vendorNormVal]
      | vNone => simp [h, vendorNormVal]
      | vBool b => simp [h, vendorNormVal]
      | vInt n => simp [h, vendorNormVal]
      | vFloat q => simp [h, vendorNormVal]
      | vList xs => simp [h, vendorNormVal]
      | vDict kvs => simp [h, vendorNormVal]

theorem normStep1_fix (x : PyDict)
    (hfix : ∀ w, dget x "date" = some w → normDateVal w = w) : normStep1 x = x := by
  unfold normStep1
  cases h : dget x "date" with
  | none => rfl
  | some w =>
      show dset x "date" (normDateVal w) = x
      rw [hfix w h]
      exact dset_self x "date" w h

theorem normStep2_fix (x : PyDict)
    (hfix : ∀ s, dget x "vendor" = some (.vStr s) → pyStrip s = s) : normStep2 x = x := by
  unfold normStep2
  cases h : dget x "vendor" with
  | none => rfl
  | some v =>
      cases v with
      | vStr s =>
          show dset x "vendor" (.vStr (pyStrip s)) = x
          rw [hfix s h]
          exact dset_self x "vendor" _ h
      | vNone => rfl
      | vBool b => rfl
      | vInt n => rfl
      | vFloat q => rfl
      | vList xs => rfl
      | vDict kvs => rfl

theorem normalize_ok_dget (d nd after : PyDict) (f : String)
    (h : normalize d = .ok (nd, after)) (hf1 : f ≠ "line_items")
    (hf2 : f ∉ (["subtotal", "tax", "total"] : List String)) :
    dget nd f = dget (normStep2 (normStep1 d)) f := by
  unfold normalize at h
  cases hli : dget (normStep2 (normStep1 d)) "line_items" with
  | none =>
      simp only [hli] at h
      cases hnf : numFields ["subtotal", "tax", "total"] (normStep2 (normStep1 d)) with
      | error e => simp only [hnf] at h; exact Except.noConfusion h
      | ok d3 =>
          simp only [hnf] at h
          simp only [Except.ok.injEq, Prod.mk.injEq] at h
          obtain ⟨h1, _⟩ := h
          subst h1
          exact numFields_other _ _ _ _ hnf hf2
  | some v =>
      simp only [hli] at h
      cases hni : normItems v with
      | error e => simp only [hni] at h; exact Except.noConfusion h
      | ok v2 =>
          simp only [hni] at h
          cases hnf : numFields ["subtotal", "tax", "total"]
              (dset (normStep2 (normStep1 d)) "line_items" v2) with
          | error e => simp only [hnf] at h; exact Except.noConfusion h
          | ok d3 =>
              simp only [hnf] at h
              simp only [Except.ok.injEq, Prod.mk.injEq] at h
              obtain ⟨h1, _⟩ := h
              subst h1
              rw [numFields_other _ _ _ _ hnf hf2, dget_dset_ne _ _ _ _ hf1]

theorem coerceKey_ne (k f : String) (kvs kvs' : PyDict) (hne : f ≠ k)
    (h : coerceKey k kvs = .ok kvs') : dget kvs' f = dget kvs f := by
  unfold coerceKey at h
  cases hg : dget kvs k with
  | none =>
      simp only [hg] at h
      simp only [Except.ok.injEq] at h
      subst h
      rfl
  | some v =>
      simp only [hg] at h
      cases hq : pyFloat v with
      | error e => simp only [hq] at h; exact Except.noConfusion h
      | ok q =>
          simp only [hq] at h
          simp only [Except.ok.injEq] at h
          subst h
          exact dget_dset_ne _ _ _ _ hne

theorem coerceKey_ok_shape (k : String) (kvs kvs' : PyDict)
    (h : coerceKey k kvs = .ok kvs') :
    dget kvs' k = Option.none ∨ ∃ q, dget kvs' k = some (.vFloat q) := by
  unfold coerceKey at h
  cases hg : dget kvs k with
  | none =>
      simp only [hg] at h
      simp only [Except.ok.injEq] at h
      subst h
      exact Or.inl hg
  | some v =>
      simp only [hg] at h
      cases hq : pyFloat v with
      | error e => simp only [hq] at h; exact Except.noConfusion h
      | ok q =>
          simp only [hq] at h
          simp only [Except.ok.injEq] at h
          subst h
          exact Or.inr ⟨q, dget_dset_self _ _ _⟩

theorem coerceKey_shape_ok (k : String) (kvs : PyDict)
    (h : dget kvs k = Option.none ∨ ∃ q, dget kvs k = some (.vFloat q)) :
    coerceKey k kvs = .ok kvs := by
  unfold coerceKey
  cases h with
  | inl hn => rw [hn]
  | inr hq =>
      obtain ⟨q, hq⟩ := hq
      rw [hq]
      simp only [pyFloat_vFloat]
      rw [dset_self _ _ _ hq]

theorem normItem_idem (x y : PyVal) (h : normItem x = .ok y) : normItem y = .ok y := by
  cases x with
  | vDict kvs =>
      simp only [normItem] at h
      cases ha : coerceKey "quantity" kvs with
      | error e => simp only [ha] at h; exact Except.noConfusion h
      | ok a =>
          simp only [ha] at h
          cases hb : coerceKey "unit_price" a with
          | error e => simp only [hb] at h; exact Except.noConfusion h
          | ok b =>
              simp only [hb] at h
              cases hc : coerceKey "total" b with
              | error e => simp only [hc] at h; exact Except.noConfusion h
              | ok c =>
                  simp only [hc] at h
                  simp only [Except.ok.injEq] at h
                  subst h
                  have hq : dget c "quantity" = Option.none ∨
                      ∃ q, dget c "quantity" = some (.vFloat q) := by
                    rw [coerceKey_ne _ _ _ _ (by decide) hc,
                      coerceKey_ne _ _ _ _ (by decide) hb]
                    exact coerceKey_ok_shape _ _ _ ha
                  have hu : dget c "unit_price" = Option.none ∨
                      ∃ q, dget c "unit_price" = some (.vFloat q) := by
                    rw [coerceKey_ne _ _ _ _ (by decide) hc]
                    exact coerceKey_ok_shape _ _ _ hb
                  have ht : dget c "total" = Option.none ∨
                      ∃ q, dget c "total" = some (.vFloat q) :=
                    coerceKey_ok_shape _ _ _ hc
                  simp only [normItem, coerceKey_shape_ok _ _ hq,
                    coerceKey_shape_ok _ _ hu, coerceKey_shape_ok _ _ ht]
  | vStr s =>
      simp only [normItem] at h
      by_cases hc : (strContains s "quantity" || strContains s "unit_price" ||
          strContains s "total") = true
      · rw [if_pos hc] at h
        exact Except.noConfusion h
      · rw [if_neg hc] at h
        simp only [Except.ok.injEq] at h
        subst h
        simp only [normItem]
        rw [if_neg hc]
  | vList ys =>
      simp only [normItem] at h
      by_cases hc : (containsStrVal ys "quantity" || containsStrVal ys "unit_price" ||
          containsStrVal ys "total") = true
      · rw [if_pos hc] at h
        exact Except.noConfusion h
      · rw [if_neg hc] at h
        simp only [Except.ok.injEq] at h
        subst h
        simp only [normItem]
        rw [if_neg hc]
  | vNone => exact Except.noConfusion h
  | vBool b => exact Except.noConfusion h
  | vInt n => exact Except.noConfusion h
  | vFloat q => exact Except.noConfusion h

theorem mapExcept_normItem_idem (xs ys : List PyVal)
    (h : mapExcept normItem xs = .ok ys) : mapExcept normItem ys = .ok ys := by
  induction xs generalizing ys with
  | nil =>
      simp only [mapExcept] at h
      simp only [Except.ok.injEq] at h
      subst h
      rfl
  | cons x xs ih =>
      simp only [mapExcept] at h
      cases hx : normItem x with
      | error e => simp only [hx] at h; exact Except.noConfusion h
      | ok y =>
          simp only [hx] at h
          cases hrest : mapExcept normItem xs with
          | error e => simp only [hrest] at h; exact Except.noConfusion h
          | ok ys' =>
              simp only [hrest] at h
              simp only [Except.ok.injEq] at h
              subst h
              simp only [mapExcept, normItem_idem x y hx, ih _ hrest]

theorem normItems_idem (v w : PyVal) (h : normItems v = .ok w) : normItems w = .ok w := by
  cases v with
  | vList xs =>
      simp only [normItems] at h
      cases hm : mapExcept normItem xs with
      | error e => simp only [hm] at h; exact Except.noConfusion h
      | ok ys =>
          simp only [hm] at h
          simp only [Except.ok.injEq] at h
          subst h
          simp only [normItems, mapExcept_normItem_idem xs ys hm]
  | vStr s =>
      simp only [normItems] at h
      simp only [Except.ok.injEq] at h
      subst h
      rfl
  | vDict kvs =>
      simp only [normItems] at h
      by_cases hc : (kvs.any fun kv => strContains kv.1 "quantity" ||
          strContains kv.1 "unit_price" || strContains kv.1 "total") = true
      · rw [if_pos hc] at h
        exact Except.noConfusion h
      · rw [if_neg hc] at h
        simp only [Except.ok.injEq] at h
        subst h
        simp only [normItems]
        rw [if_neg hc]
  | vNone => exact Except.noConfusion h
  | vBool b => exact Except.noConfusion h
  | vInt n => exact Except.noConfusion h
  | vFloat q => exact Except.noConfusion h

theorem numFields_float (fs : List String) (d d' : PyDict) (f : String) (q : ℚ)
    (h : numFields fs d = .ok d') (hf : dget d f = some (.vFloat q)) :
    ∃ q', dget d' f = some (.vFloat q') := by
  induction fs generalizing d q with
  | nil =>
      unfold numFields at h
      simp only [Except.ok.injEq] at h
      subst h
      exact ⟨q, hf⟩
  | cons g gs ih =>
      unfold numFields at h
      cases hg : dget d g with
      | none => simp only [hg] at h; exact ih d q h hf
      | some v =>
          simp only [hg] at h
          cases hqv : pyFloat v with
          | error e => simp only [hqv] at h; exact Except.noConfusion h
          | ok q2 =>
              simp only [hqv] at h
              by_cases hgf : f = g
              · subst hgf
                exact ih _ q2 h (dget_dset_self _ _ _)
              · exact ih _ q h (by rw [dget_dset_ne _ _ _ _ hgf]; exact hf)

theorem numFields_idem (fs : List String) (d d' : PyDict)
    (h : numFields fs d = .ok d') : numFields fs d' = .ok d' := by
  induction fs generalizing d with
  | nil =>
      unfold numFields at h
      simp only [Except.ok.injEq] at h
      subst h
      rfl
  | cons g gs ih =>
      unfold numFields at h
      cases hg : dget d g with
      | none =>
          simp only [hg] at h
          have hmiss := numFields_missing gs d d' g h hg
          unfold numFields
          rw [hmiss]
          exact ih d h
      | some v =>
          simp only [hg] at h
          cases hqv : pyFloat v with
          | error e => simp only [hqv] at h; exact Except.noConfusion h
          | ok q =>
              simp only [hqv] at h
              obtain ⟨q', hq'⟩ := numFields_float gs _ _ g q h (dget_dset_self _ _ _)
              unfold numFields
              rw [hq']
              simp only [pyFloat_vFloat]
              rw [dset_self _ _ _ hq']
              exact ih _ h

/-- C6: normalization is idempotent — whenever `normalize` succeeds,
running it again on its own output returns that output unchanged (and,
the input already being normalized, the caller's dict is also left
exactly as it is). -/
theorem normalize_idem (d nd after : PyDict) (h : normalize d = .ok (nd, after)) :
    normalize nd = .ok (nd, nd) := by
  have hdate : dget nd "date" = Option.map normDateVal (dget d "date") := by
    rw [normalize_ok_dget d nd after "date" h (by decide) (by decide),
      dget_normStep2_ne _ _ (by decide)]
    exact normStep1_dget_date d
  have hs1 : normStep1 nd = nd := by
    apply normStep1_fix
    intro w hw
    rw [hdate] at hw
    cases hv : dget d "date" with
    | none => rw [hv] at hw; exact Option.noConfusion hw
    | some v =>
        rw [hv] at hw
        simp only [Option.map_some', Option.some.injEq] at hw
        rw [← hw]
        exact normDateVal_idem v
  have hvendor : dget nd "vendor" = Option.map vendorNormVal (dget (normStep1 d) "vendor") := by
    rw [normalize_ok_dget d nd after "vendor" h (by decide) (by decide)]
    exact normStep2_dget_vendor (normStep1 d)
  have hs2 : normStep2 nd = nd := by
    apply normStep2_fix
    intro s hw
    rw [hvendor] at hw
    cases hv : dget (normStep1 d) "vendor" with
    | none => rw [hv] at hw; exact Option.noConfusion hw
    | some v =>
        rw [hv] at hw
        simp only [Option.map_some', Option.some.injEq] at hw
        cases v with
        | vStr t =>
            simp only [vendorNormVal, PyVal.vStr.injEq] at hw
            rw [← hw]
            exact congrArg String.mk (strip_list_idem isPySpace t.data)
        | vNone => exact PyVal.noConfusion hw
        | vBool b => exact PyVal.noConfusion hw
        | vInt n => exact PyVal.noConfusion hw
        | vFloat q => exact PyVal.noConfusion hw
        | vList xs => exact PyVal.noConfusion hw
        | vDict kvs => exact PyVal.noConfusion hw
  unfold normalize at h
  cases hli : dget (normStep2 (normStep1 d)) "line_items" with
  | none =>
      simp only [hli] at h
      cases hnf : numFields ["subtotal", "tax", "total"] (normStep2 (normStep1 d)) with
      | error e => simp only [hnf] at h; exact Except.noConfusion h
      | ok d3 =>
          simp only [hnf] at h
          simp only [Except.ok.injEq, Prod.mk.injEq] at h
          obtain ⟨h1, _⟩ := h
          subst h1
          have hlin : dget d3 "line_items" = Option.none := by
            rw [numFields_other _ _ _ _ hnf (by decide)]
            exact hli
          have hnf2 : numFields ["subtotal", "tax", "total"] d3 = Except.ok d3 :=
            numFields_idem _ _ _ hnf
          unfold normalize
          simp only [hs1, hs2, hlin, hnf2]
  | some v =>
      simp only [hli] at h
      cases hni : normItems v with
      | error e => simp only [hni] at h; exact Except.noConfusion h
      | ok v2 =>
          simp only [hni] at h
          cases hnf : numFields ["subtotal", "tax", "total"]
              (dset (normStep2 (normStep1 d)) "line_items" v2) with
          | error e => simp only [hnf] at h; exact Except.noConfusion h
          | ok d3 =>
              simp only [hnf] at h
              simp only [Except.ok.injEq, Prod.mk.injEq] at h
              obtain ⟨h1, _⟩ := h
              subst h1
              have hlin : dget d3 "line_items" = some v2 := by
                rw [numFields_other _ _ _ _ hnf (by decide)]
                exact dget_dset_self _ _ _
              have hstep : normItems v2 = Except.ok v2 := normItems_idem v v2 hni
              have hset : dset d3 "line_items" v2 = d3 := dset_self d3 "line_items" v2 hlin
              have hnf2 : numFields ["subtotal", "tax", "total"] d3 = Except.ok d3 :=
                numFields_idem _ _ _ hnf
              unfold normalize
              simp only [hs1, hs2, hlin, hstep, hset, hnf2]

/-- C6, witness: re-normalizing the normalization of `recStrNums`. -/
theorem normalize_idem_witness : normalize recStrNumsNorm = .ok (recStrNumsNorm, recStrNumsNorm) :=
  normalize_idem recStrNums recStrNumsNorm recStrNumsAfter (by rfl)

/-- C9, witness at a concrete passing record. -/
theorem run_data_status_invariant_witness :
    (recPassResult.valid = true ↔ recPassResult.status = "PASS") ∧
      (recPassResult.status = "PASS" ↔
        recPassResult.schema_errors = [] ∧ recPassResult.date_errors = [] ∧
          recPassResult.business_errors = [] ∧ recPassResult.custom_errors = []) :=
  run_data_status_invariant recPass ⟨2025, 10, 12⟩ recPassResult recPass (by rfl)

theorem pyFloat_vStr_ok (s : String) (h : (parseFloatStr s).isSome = true) :
    ∃ q, pyFloat (.vStr s) = .ok q := by
  simp only [pyFloat]
  cases hp : parseFloatStr s with
  | none => rw [hp] at h; exact absurd h (by simp)
  | some q => exact ⟨q, rfl⟩

theorem convItem_ok (g : String × String × String × String) (h : lineGroupsOkB g = true) :
    ∃ x, convItem g = .ok x := by
  simp only [lineGroupsOkB, Bool.and_eq_true] at h
  obtain ⟨⟨h1, h2⟩, h3⟩ := h
  obtain ⟨q, hq⟩ := pyFloat_vStr_ok _ h1
  obtain ⟨u, hu⟩ := pyFloat_vStr_ok _ h2
  obtain ⟨t, ht⟩ := pyFloat_vStr_ok _ h3
  refine ⟨(pyStrip g.2.1, q, u, t), ?_⟩
  unfold convItem
  rw [hq, hu, ht]

theorem mapExceptConv_ok (gs : List (String × String × String × String))
    (h : ∀ g ∈ gs, lineGroupsOkB g = true) : ∃ xs, mapExceptConv gs = .ok xs := by
  induction gs with
  | nil => exact ⟨[], rfl⟩
  | cons g gs ih =>
      obtain ⟨x, hx⟩ := convItem_ok g (h g (List.mem_cons_self g gs))
      obtain ⟨xs, hxs⟩ := ih (fun g2 hg2 => h g2 (List.mem_cons_of_mem g hg2))
      refine ⟨x :: xs, ?_⟩
      simp only [mapExceptConv, hx, hxs]

/-- C7: the claim as stated is false — `_basic_parse` raises `ValueError`
on texts where a matched numeric group does not convert to `float` (the
label pattern's character class admits strings like a lone dot).  Amended:
whenever every matched numeric group (the Subtotal, Tax and Total label
groups and the three numeric groups of every matched line item, commas
stripped) converts to `float`, `_basic_parse` returns a record without
raising; the fallbacks cover only absent matches, not unconvertible
ones. -/
theorem basic_parse_ok_of_groups_parse (t : String)
    (h1 : numGroupOkB (searchLabelNum "Subtotal" t) = true)
    (h2 : numGroupOkB (searchLabelNum "Tax" t) = true)
    (h3 : numGroupOkB (searchLabelNum "Total" t) = true)
    (h4 : ∀ g ∈ (pyLines t).filterMap searchLineItem, lineGroupsOkB g = true) :
    exceptIsOk (basic_parse t) = true := by
  obtain ⟨items, hitems⟩ := mapExceptConv_ok _ h4
  unfold basic_parse
  simp only [hitems]
  cases hsb : searchLabelNum "Subtotal" t with
  | none =>
      simp only [hsb]
      cases htx : searchLabelNum "Tax" t with
      | none =>
          simp only [htx]
          cases htt : searchLabelNum "Total" t with
          | none => simp only [htt]; rfl
          | some g3 =>
              rw [htt] at h3
              simp only [numGroupOkB] at h3
              obtain ⟨q3, hq3⟩ := pyFloat_vStr_ok _ h3
              simp only [htt, hq3]
              rfl
      | some g2 =>
          rw [htx] at h2
          simp only [numGroupOkB] at h2
          obtain ⟨q2, hq2⟩ := pyFloat_vStr_ok _ h2
          simp only [htx, hq2]
          cases htt : searchLabelNum "Total" t with
          | none => simp only [htt]; rfl
          | some g3 =>
              rw [htt] at h3
              simp only [numGroupOkB] at h3
              obtain ⟨q3, hq3⟩ := pyFloat_vStr_ok _ h3
              simp only [htt, hq3]
              rfl
  | some g1 =>
      rw [hsb] at h1
      simp only [numGroupOkB] at h1
      obtain ⟨q1, hq1⟩ := pyFloat_vStr_ok _ h1
      simp only [hsb, hq1]
      cases htx : searchLabelNum "Tax" t with
      | none =>
          simp only [htx]
          cases htt : searchLabelNum "Total" t with
          | none => simp only [htt]; rfl
          | some g3 =>
              rw [htt] at h3
              simp only [numGroupOkB] at h3
              obtain ⟨q3, hq3⟩ := pyFloat_vStr_ok _ h3
              simp only [htt, hq3]
              rfl
      | some g2 =>
          rw [htx] at h2
          simp only [numGroupOkB] at h2
          obtain ⟨q2, hq2⟩ := pyFloat_vStr_ok _ h2
          simp only [htx, hq2]
          cases htt : searchLabelNum "Total" t with
          | none => simp only [htt]; rfl
          | some g3 =>
              rw [htt] at h3
              simp only [numGroupOkB] at h3
              obtain ⟨q3, hq3⟩ := pyFloat_vStr_ok _ h3
              simp only [htt, hq3]
              rfl

/-- C7, witness: on the empty text every hypothesis holds (no matches at
all) and parsing succeeds. -/
theorem basic_parse_ok_of_groups_parse_witness : exceptIsOk (basic_parse "") = true :=
  basic_parse_ok_of_groups_parse "" (by decide) (by decide) (by decide) (by decide)

/-- C7, counterexample: the text "Subtotal: ." matches the Subtotal label
with numeric group ".", and `float(".")` raises `ValueError`, so
`_basic_parse` does not return a record on every input. -/
theorem basic_parse_raises_on_dot :
    basic_parse "Subtotal: ." =
      .error "could not convert string to float: \x27.\x27" := by rfl

/-- C8: the claim as stated is false — a text with no line-item match can
still carry labeled totals (for example "Subtotal: 200"), which override
the 50.0 fallback.  Amended: when no line matches the line-item pattern
AND none of the Subtotal, Tax and Total labels match, the parsed record
has exactly the fallback Service item (quantity the integer 1, unit price
50.0, total 50.0) and subtotal 50.0, tax 5.0, total 55.0. -/
theorem fallback_when_nothing_matches (t : String)
    (hli : (pyLines t).filterMap searchLineItem = [])
    (hsb : searchLabelNum "Subtotal" t = Option.none)
    (htx : searchLabelNum "Tax" t = Option.none)
    (htt : searchLabelNum "Total" t = Option.none) :
    Except.map (fun d => (dget d "line_items", obsFloat (dget d "subtotal"),
        obsFloat (dget d "tax"), obsFloat (dget d "total"))) (basic_parse t)
      = .ok (some (.vList [fallbackItem]), some 50, some 5, some 55) := by
  unfold basic_parse
  rw [hli, hsb, htx, htt]
  rfl

/-- C8, witness: the empty text matches nothing and yields the fallback
record. -/
theorem fallback_when_nothing_matches_witness :
    Except.map (fun d => (dget d "line_items", obsFloat (dget d "subtotal"),
        obsFloat (dget d "tax"), obsFloat (dget d "total"))) (basic_parse "")
      = .ok (some (.vList [fallbackItem]), some 50, some 5, some 55) :=
  fallback_when_nothing_matches "" (by rfl) (by rfl) (by rfl) (by rfl)

/-- C8, counterexample: "Subtotal: 200" has no line-item match, yet the
parsed subtotal is 200.0, not 50.0. -/
theorem no_line_items_subtotal_not_50 :
    (pyLines "Subtotal: 200").filterMap searchLineItem = [] ∧
      Except.map (fun d => obsFloat (dget d "subtotal")) (basic_parse "Subtotal: 200")
        = .ok (some 200) :=
  ⟨by rfl, by rfl⟩

end InvoiceProof
